import Mathlib

/-!
Verification development for the zenmonitor bot's reconciliation engine.

The embedding models, from the Python source:
  * `redis_db.py` : `_parse_task_hash`, `add_notified_items`, `remove_task`,
    `get_distinct_chat_ids`, and the `all_chats` index effect of `add_task`;
  * `bot.py` : the periodic job `check_monitoring_tasks` (grouping of tasks
    into unique scrape keys, the global-timeout abort, scrape-result
    normalization, per-item matching, the per-item delivery loop with its
    `Forbidden` handling, the per-task persistence of newly notified urls,
    and the end-of-cycle removal of tasks whose chat turned `Forbidden`).

The Telegram transport and the network scraper are external collaborators;
they enter the model as parameters: a function from scrape key to a raw
scrape result (`exc` models a raised exception, `noneResult` a `None`
return), and a function from task id and item to a delivery outcome
(`success` models `message_sent_successfully = True`, `forbidden` a
`telegram.error.Forbidden`, `failed` every other failure).  Machine floats
that only ever get compared (`price`, `max_price`) are modelled as `Rat`.
`MAX_NOTIFIED_HISTORY_PER_TASK = 0` in `config.py`, so the trimming branch
of `add_notified_items` is dead code and is not modelled.
-/

namespace ZenMonitor

/-! ### Python string/number primitives used by `redis_db.py` -/

/-- The decimal digit character for `d ≤ 9` (clamps above 9, which never occurs). -/
def digitChar (d : Nat) : Char :=
  match d with
  | 0 => '0' | 1 => '1' | 2 => '2' | 3 => '3' | 4 => '4'
  | 5 => '5' | 6 => '6' | 7 => '7' | 8 => '8' | _ => '9'

/-- Value of a list of decimal digit characters, most significant first. -/
def digitsToNat (l : List Char) : Nat :=
  l.foldl (fun n c => n * 10 + (c.toNat - 48)) 0

/-- `True` iff the list is a nonempty run of decimal digits: models Python
`str.isdigit()` on the ASCII strings this program stores. -/
def isDigits (l : List Char) : Bool :=
  !l.isEmpty && l.all Char.isDigit

/-- Decimal digit string of a natural number, most significant digit first. -/
def natDigits (n : Nat) : List Char :=
  if _h : n < 10 then [digitChar n]
  else natDigits (n / 10) ++ [digitChar (n % 10)]
  termination_by n
  decreasing_by exact Nat.div_lt_self (by omega) (by omega)

/-- Python `str` on an `int`: decimal digits, with a leading `'-'` when negative.
This is what `redis-py` stores when an `int` is passed to `SADD`/`HSET`. -/
def pyStr (i : Int) : String :=
  ⟨if i < 0 then '-' :: natDigits i.natAbs else natDigits i.natAbs⟩

/-- Python `int(s)` on the strings this program stores: an optional leading
`'-'` followed by a nonempty digit run; everything else raises (`none`). -/
def pyInt (s : String) : Option Int :=
  match s.data with
  | '-' :: rest => if isDigits rest then some (-(digitsToNat rest : Int)) else none
  | l => if isDigits l then some (digitsToNat l : Int) else none

/-- Python `float(s)` on the strings this program stores: an optional leading
`'-'`, then digits with at most one `'.'` (not `"."` alone); everything else
raises (`none`).  The value is exact as a rational. -/
def pyFloat (s : String) : Option Rat :=
  let core : List Char → Option Rat := fun l =>
    match l.splitOn '.' with
    | [a] => if isDigits a then some (digitsToNat a : Rat) else none
    | [a, b] =>
      if a.isEmpty && b.isEmpty then none
      else if a.all Char.isDigit && b.all Char.isDigit then
        some ((digitsToNat a : Rat) + (digitsToNat b : Rat) / (10 : Rat) ^ b.length)
      else none
    | _ => none
  match s.data with
  | '-' :: rest => (core rest).map Neg.neg
  | l => core l

/-! ### Task records (`redis_db.py`) -/

/-- A stored task hash: the Redis hash for one task, each field a string when
the key is present.  `add_task` writes exactly these seven fields. -/
structure TaskHash where
  id : Option String := none
  chat_id : Option String := none
  platform : Option String := none
  query : Option String := none
  max_price : Option String := none
  sort_options : Option String := none
  max_minutes_left : Option String := none
deriving DecidableEq, Repr

/-- `not task_hash` in `_parse_task_hash`: the hash read back had no fields. -/
def TaskHash.isEmpty (h : TaskHash) : Bool :=
  h.id.isNone && h.chat_id.isNone && h.platform.isNone && h.query.isNone &&
    h.max_price.isNone && h.sort_options.isNone && h.max_minutes_left.isNone

/-- The result of `_parse_task_hash`: the task dict with converted types.
`platform` and `query` are carried over untouched (possibly absent). -/
structure ParsedTask where
  id : Int
  chat_id : Int
  platform : Option String
  query : Option String
  max_price : Rat
  sort_options : Option String
  max_minutes_left : Option Nat
deriving DecidableEq, Repr

/-- `redis_db._parse_task_hash`: converts a Redis hash back into a task dict.
An absent `id`/`chat_id`/`max_price` is read through `.get(key, 0)` and so
converts to `0`; a present but non-numeric one raises `ValueError`, caught
to return `None`.  `sort_options` collapses `""`/absent to `None`.
`max_minutes_left` becomes `None` unless present and all digits. -/
def parse_task_hash (h : TaskHash) : Option ParsedTask :=
  if h.isEmpty then none
  else
    let idv := match h.id with
      | none => some (0 : Int)
      | some s => pyInt s
    let chatv := match h.chat_id with
      | none => some (0 : Int)
      | some s => pyInt s
    let pricev := match h.max_price with
      | none => some (0 : Rat)
      | some s => pyFloat s
    match idv, chatv, pricev with
    | some i, some c, some p =>
      some
        { id := i
          chat_id := c
          platform := h.platform
          query := h.query
          max_price := p
          sort_options :=
            match h.sort_options with
            | none => none
            | some s => if s.data.isEmpty then none else some s
          max_minutes_left :=
            match h.max_minutes_left with
            | none => none
            | some s => if isDigits s.data then some (digitsToNat s.data) else none }
    | _, _, _ => none

example : parse_task_hash {} = none := by decide

example :
    parse_task_hash
      { id := some "3", chat_id := some "77", platform := some "mercari",
        query := some "holo plush", max_price := some "5000",
        sort_options := some "", max_minutes_left := some "" } =
    some
      { id := 3, chat_id := 77, platform := some "mercari",
        query := some "holo plush", max_price := 5000,
        sort_options := none, max_minutes_left := none } := by decide

example :
    parse_task_hash
      { id := some "abc", chat_id := some "1", platform := some "p",
        query := some "q", max_price := some "10" } = none := by decide

example :
    parse_task_hash { platform := some "mercari", query := some "q" } =
    some
      { id := 0, chat_id := 0, platform := some "mercari", query := some "q",
        max_price := 0, sort_options := none, max_minutes_left := none } := by decide

/-! ### Fetched items and scrape results (`scraper.py` output, `bot.py` input) -/

/-- One listing as consumed by `check_monitoring_tasks` via `item.get(...)`:
every field may be absent.  `minutes_left = -1` is the "already ended"
sentinel produced by `parse_time_remaining`. -/
structure Item where
  name : Option String := none
  price : Option Rat := none
  url : Option String := none
  image_url : Option String := none
  minutes_left : Option Int := none
deriving DecidableEq, Repr

/-- `item.get('url')` as used for dedup bookkeeping; only read on items whose
url was checked truthy. -/
def urlOf (it : Item) : String := it.url.getD ""

/-- One entry of `scrape_results_raw` after `asyncio.gather` with
`return_exceptions=True`: a raised exception, a `None` return, or a list. -/
inductive ScrapeRaw where
  | exc
  | noneResult
  | items (xs : List Item)
deriving DecidableEq, Repr

/-- Lines 543-547 of `bot.py`: a `None` result is logged as critical and
substituted with `[]`; exceptions and lists are stored as is. -/
def normalizeScrape (r : ScrapeRaw) : ScrapeRaw :=
  match r with
  | .noneResult => .items []
  | r => r

/-! ### Match evaluation (`bot.py` lines 574-592) -/

/-- Python truthiness of an optional string (`if not x`). -/
def truthy : Option String → Bool
  | none => false
  | some s => !s.data.isEmpty

/-- Whether one fetched item matches a task's criteria (`bot.py` 574-587):
the item is skipped unless its url is truthy and its price present; it then
matches iff `price ≤ max_price`, and — when `max_minutes_left` is set —
additionally `minutes_left` is present, not the `-1` sentinel, and
`≤ max_minutes_left`. -/
def item_matches (max_price : Rat) (max_minutes : Option Nat) (it : Item) : Bool :=
  if !truthy it.url || it.price.isNone then false
  else
    let price_match := decide (it.price.getD 0 ≤ max_price)
    match max_minutes with
    | some m =>
      let time_match :=
        match it.minutes_left with
        | some t => decide (t ≠ -1) && decide (t ≤ (m : Int))
        | none => false
      price_match && time_match
    | none => price_match

/-- `items_to_notify_this_task` (`bot.py` 589-592): the matching items whose
url is not yet in the task's notified set. -/
def items_to_notify (max_price : Rat) (max_minutes : Option Nat)
    (notified_set : List String) (xs : List Item) : List Item :=
  xs.filter fun it =>
    item_matches max_price max_minutes it && !decide (urlOf it ∈ notified_set)

/-! ### Delivery (`bot.py` lines 597-730) -/

/-- Net outcome of the whole send ladder for one item: `success` iff
`message_sent_successfully` ended up `True` (directly or through a
fallback), `forbidden` iff a `telegram.error.Forbidden` was raised, and
`failed` for every other failure (`BadRequest` without successful fallback,
`TimedOut`, unexpected exceptions). -/
inductive SendOutcome where
  | success
  | forbidden
  | failed
deriving DecidableEq, Repr

/-- What one task's delivery pass produced: the items whose message was
sent, `newly_notified_urls_for_db`, and whether a `Forbidden` scheduled the
task for removal. -/
structure WatchOutcome where
  sentItems : List Item
  newlyUrls : List String
  scheduleRemoval : Bool
deriving DecidableEq, Repr

/-- The `for item in items_to_notify_this_task` loop: a successful send
appends the item's url to `newly_notified_urls_for_db`; a `Forbidden`
schedules removal and `break`s; any other failure just moves on. -/
def notify_loop (send : Item → SendOutcome) : List Item → WatchOutcome
  | [] => ⟨[], [], false⟩
  | it :: rest =>
    match send it with
    | .forbidden => ⟨[], [], true⟩
    | .success =>
      let r := notify_loop send rest
      ⟨it :: r.sentItems, urlOf it :: r.newlyUrls, r.scheduleRemoval⟩
    | .failed => notify_loop send rest

/-- The items for which a delivery attempt actually runs: the loop stops
right after the item whose send raised `Forbidden`. -/
def attempted (send : Item → SendOutcome) : List Item → List Item
  | [] => []
  | it :: rest =>
    match send it with
    | .forbidden => [it]
    | _ => it :: attempted send rest

example :
    notify_loop
      (fun it => if it.url = some "u1" then .success else .forbidden)
      [{ url := some "u1" }, { url := some "u2" }, { url := some "u3" }] =
    ⟨[{ url := some "u1" }], ["u1"], true⟩ := by decide

/-! ### The Redis store (association-list model) -/

/-- First-match association lookup (a Redis keyspace has unique keys). -/
def assocFind {α β : Type} [DecidableEq α] : List (α × β) → α → Option β
  | [], _ => none
  | (k, v) :: rest, a => if k = a then some v else assocFind rest a

/-- Update the first binding of a key, or append a fresh one. -/
def assocSet {α β : Type} [DecidableEq α] : List (α × β) → α → β → List (α × β)
  | [], k, v => [(k, v)]
  | (a, b) :: rest, k, v =>
    if a = k then (k, v) :: rest else (a, b) :: assocSet rest k v

/-- Redis `SADD` of several members into a set kept as a duplicate-free list. -/
def saddAll (s : List String) (new : List String) : List String :=
  new.foldl (fun acc u => if u ∈ acc then acc else acc ++ [u]) s

/-- The slice of the Redis database the cycle touches: the task hashes
(standing for both the `task:*` keys and the `all_tasks` index), the
per-task `notified:*` sets, and the `chat_tasks:*` index sets.  The
`all_chats` index is modelled separately with `get_distinct_chat_ids`. -/
structure Store where
  tasks : List (String × TaskHash)
  notified : List (String × List String)
  chatTasks : List (Int × List String)
deriving DecidableEq, Repr

/-- The notified set loaded for a task (`smembers`, absent key gives `∅`). -/
def seenOf (st : Store) (tid : String) : List String :=
  (assocFind st.notified tid).getD []

/-- `redis_db.add_notified_items` with `MAX_NOTIFIED_HISTORY_PER_TASK = 0`
(the configured value): `SADD` the urls into the task's notified set; an
empty url list writes nothing. -/
def add_notified_items (st : Store) (tid : String) (urls : List String) : Store :=
  if urls.isEmpty then st
  else { st with notified := assocSet st.notified tid (saddAll (seenOf st tid) urls) }

/-- `redis_db.remove_task`: bail out (`False`) when the task id is not in the
chat's `chat_tasks` set; otherwise delete the task hash, its notified set,
and its index entries. -/
def remove_task (st : Store) (tid : String) (chatId : Int) : Store × Bool :=
  let chatSet := (assocFind st.chatTasks chatId).getD []
  if tid ∉ chatSet then (st, false)
  else
    ({ tasks := st.tasks.filter fun p => p.1 ≠ tid
       notified := st.notified.filter fun p => p.1 ≠ tid
       chatTasks := assocSet st.chatTasks chatId (chatSet.filter (· ≠ tid)) },
     true)

/-! ### The periodic cycle (`bot.py` `check_monitoring_tasks`) -/

/-- The scrape key built at lines 509-510 and 565-566: the raw triple
`(platform, query, sort_options)` with possibly absent components. -/
abbrev ScrapeKey := Option String × Option String × Option String

def scrapeKeyOf (t : ParsedTask) : ScrapeKey := (t.platform, t.query, t.sort_options)

/-- `task_details_map`: the tasks whose hash parsed, keyed by task id. -/
def parsedTasks (tasks : List (String × TaskHash)) : List (String × ParsedTask) :=
  tasks.filterMap fun p => (parse_task_hash p.2).map fun t => (p.1, t)

/-- `keys_in_order`: the distinct scrape keys, in first-occurrence order, of
the tasks whose `platform` and `query` are truthy (lines 507-522); the cycle
runs exactly one `scrape_zenmarket` call per entry of this list. -/
def keys_in_order (ps : List (String × ParsedTask)) : List ScrapeKey :=
  ps.foldl
    (fun acc p =>
      if truthy p.2.platform && truthy p.2.query then
        if scrapeKeyOf p.2 ∈ acc then acc else acc ++ [scrapeKeyOf p.2]
      else acc)
    []

/-- `scraped_items_map` (lines 539-547): one scrape per key in order, with
`None` results normalized to `[]`.  The scraper itself is the parameter
`f`. -/
def scrapedMapOf (ps : List (String × ParsedTask)) (f : ScrapeKey → ScrapeRaw) :
    List (ScrapeKey × ScrapeRaw) :=
  (keys_in_order ps).map fun k => (k, normalizeScrape (f k))

/-- Line 561: `all([chat_id, platform, query, task_max_price is not None])`.
A parsed task always carries a numeric `max_price`, so that conjunct holds;
`chat_id` is truthy iff nonzero. -/
def essentialsOk (t : ParsedTask) : Bool :=
  decide (t.chat_id ≠ 0) && truthy t.platform && truthy t.query

/-- Everything one task contributes before persistence (lines 552-730): skip
on missing essentials; skip when its key's scrape raised, was never run, or
returned no items; otherwise run the delivery loop over the new matching
items. -/
def runWatch (send : Item → SendOutcome) (t : ParsedTask) (seen : List String)
    (scraped : Option ScrapeRaw) : WatchOutcome :=
  if !essentialsOk t then ⟨[], [], false⟩
  else
    match scraped with
    | none => ⟨[], [], false⟩
    | some .exc => ⟨[], [], false⟩
    | some .noneResult => ⟨[], [], false⟩
    | some (.items xs) =>
      if xs.isEmpty then ⟨[], [], false⟩
      else notify_loop send (items_to_notify t.max_price t.max_minutes_left seen xs)

/-- `runWatch` applied the way the cycle applies it: the seen snapshot read
at cycle start and the scrape result looked up by the task's key. -/
def watchW (send : String → Item → SendOutcome)
    (snapshot : List (String × List String)) (scrapedMap : List (ScrapeKey × ScrapeRaw))
    (p : String × ParsedTask) : WatchOutcome :=
  runWatch (send p.1) p.2 ((assocFind snapshot p.1).getD [])
    (assocFind scrapedMap (scrapeKeyOf p.2))

/-- In-flight cycle state: the store (receiving per-task notified writes),
the notifications sent so far, and `tasks_to_remove_later`. -/
structure CycleAcc where
  store : Store
  notifs : List (String × Item)
  removals : List (String × Int)
deriving DecidableEq, Repr

/-- One iteration of the `for task_id_str, task in task_details_map.items()`
loop: run the watch, record a `Forbidden` in `tasks_to_remove_later`
(deduplicated), and persist `newly_notified_urls_for_db` unless the task is
scheduled for removal or the list is empty (lines 732-741). -/
def cycleStep (send : String → Item → SendOutcome)
    (snapshot : List (String × List String)) (scrapedMap : List (ScrapeKey × ScrapeRaw))
    (acc : CycleAcc) (p : String × ParsedTask) : CycleAcc :=
  let w := watchW send snapshot scrapedMap p
  let removals' :=
    if w.scheduleRemoval then
      if (p.1, p.2.chat_id) ∈ acc.removals then acc.removals
      else acc.removals ++ [(p.1, p.2.chat_id)]
    else acc.removals
  let store' :=
    if (p.1, p.2.chat_id) ∉ removals' ∧ w.newlyUrls ≠ [] then
      add_notified_items acc.store p.1 w.newlyUrls
    else acc.store
  ⟨store', acc.notifs ++ w.sentItems.map fun it => (p.1, it), removals'⟩

/-- Outcome of `asyncio.wait_for` on the scrape batch: either the global
240-second timeout fired, or every scrape completed with its raw result. -/
inductive FetchBatch where
  | timeout
  | done (f : ScrapeKey → ScrapeRaw)

/-- `check_monitoring_tasks`, one cycle: load and parse all tasks with their
notified snapshots; on a batch timeout abort with no side effects (lines
532-534); otherwise scrape once per distinct key, process every task, then
remove the tasks whose chat turned `Forbidden` (lines 743-750).  Returns the
resulting store and the notifications sent, in order. -/
def check_monitoring_tasks (st : Store) (fetch : FetchBatch)
    (send : String → Item → SendOutcome) : Store × List (String × Item) :=
  match fetch with
  | .timeout => (st, [])
  | .done f =>
    let ps := parsedTasks st.tasks
    let scrapedMap := scrapedMapOf ps f
    let fin := ps.foldl (cycleStep send st.notified scrapedMap) ⟨st, [], []⟩
    let finalStore := fin.removals.foldl (fun s r => (remove_task s r.1 r.2).1) fin.store
    (finalStore, fin.notifs)

/-- The watch outcome one cycle computes for task `tid`/`t` against store `st`
and scraper `f`. -/
def watchOutcomeOf (st : Store) (f : ScrapeKey → ScrapeRaw)
    (send : String → Item → SendOutcome) (tid : String) (t : ParsedTask) : WatchOutcome :=
  watchW send st.notified (scrapedMapOf (parsedTasks st.tasks) f) (tid, t)

/-! ### Subscriber listing (`redis_db.get_distinct_chat_ids`, `add_task`) -/

/-- `add_task`'s `SADD(all_chats, chat_id)`: records `str(chat_id)` in the
`all_chats` index set (here a duplicate-free list of strings). -/
def add_task_all_chats (chatId : Int) (allChats : List String) : List String :=
  if pyStr chatId ∈ allChats then allChats else allChats ++ [pyStr chatId]

/-- `redis_db.get_distinct_chat_ids`:
`[int(cid) for cid in smembers(all_chats) if cid.isdigit()]`. -/
def get_distinct_chat_ids (allChats : List String) : List Int :=
  (allChats.filter fun cid => isDigits cid.data).map fun cid => (digitsToNat cid.data : Int)

example : get_distinct_chat_ids ["42", "-100123", "7x"] = [42] := by decide

/-! ### Sanity check of a full cycle -/

example :
    check_monitoring_tasks
      { tasks :=
          [("1",
            { id := some "1", chat_id := some "5", platform := some "mercari",
              query := some "q", max_price := some "1000", sort_options := some "",
              max_minutes_left := some "" })]
        notified := [("1", ["u0"])]
        chatTasks := [(5, ["1"])] }
      (.done fun _ =>
        .items
          [{ name := some "a", price := some 400, url := some "u1" },
           { name := some "b", price := some 400, url := some "u0" },
           { name := some "c", price := some 4000, url := some "u2" }])
      (fun _ _ => .success) =
    ({ tasks :=
        [("1",
          { id := some "1", chat_id := some "5", platform := some "mercari",
            query := some "q", max_price := some "1000", sort_options := some "",
            max_minutes_left := some "" })]
       notified := [("1", ["u0", "u1"])]
       chatTasks := [(5, ["1"])] },
     [("1", { name := some "a", price := some 400, url := some "u1" })]) := by decide

/-! ### Association-list and set lemmas -/

theorem assocFind_assocSet {α β : Type} [DecidableEq α] (l : List (α × β)) (k : α) (v : β)
    (a : α) : assocFind (assocSet l k v) a = if k = a then some v else assocFind l a := by
  induction l with
  | nil => simp [assocSet, assocFind]
  | cons p rest ih =>
    obtain ⟨x, y⟩ := p
    by_cases hxk : x = k
    · subst hxk
      simp [assocSet, assocFind]
      by_cases hka : x = a
      · simp [hka]
      · simp [hka, assocFind]
    · simp [assocSet, hxk, assocFind]
      by_cases hxa : x = a
      · subst hxa
        have : ¬ k = x := fun h => hxk h.symm
        simp [this]
      · simp [hxa, ih]

theorem assocFind_filter_ne {α β : Type} [DecidableEq α] (l : List (α × β)) (k k' : α)
    (h : k ≠ k') : assocFind (l.filter fun p => p.1 ≠ k') k = assocFind l k := by
  induction l with
  | nil => simp
  | cons p rest ih =>
    obtain ⟨x, y⟩ := p
    simp only [ne_eq, decide_not] at ih
    by_cases hx : x = k'
    · subst hx
      have hxk : ¬ x = k := fun hh => h hh.symm
      simp only [List.filter_cons, ne_eq, decide_not, decide_eq_true_eq]
      simp [assocFind, hxk, ih]
    · simp only [List.filter_cons, ne_eq, decide_not, decide_eq_true_eq]
      simp [hx, assocFind, ih]

theorem assocFind_filter_none {α β : Type} [DecidableEq α] (l : List (α × β)) (k : α)
    (pred : α × β → Bool) (h : assocFind l k = none) :
    assocFind (l.filter pred) k = none := by
  induction l with
  | nil => simp [assocFind]
  | cons p rest ih =>
    obtain ⟨x, y⟩ := p
    by_cases hxk : x = k
    · rw [assocFind, if_pos hxk] at h
      exact absurd h (by simp)
    · rw [assocFind, if_neg hxk] at h
      by_cases hp : pred (x, y)
      · simp only [List.filter_cons, hp, if_pos]
        rw [assocFind, if_neg hxk]
        exact ih h
      · simp only [List.filter_cons, hp, if_neg, Bool.false_eq_true, not_false_iff,
          ite_false]
        exact ih h

theorem assocFind_filter_self {α β : Type} [DecidableEq α] (l : List (α × β)) (k : α) :
    assocFind (l.filter fun p => p.1 ≠ k) k = none := by
  induction l with
  | nil => simp [assocFind]
  | cons p rest ih =>
    obtain ⟨x, y⟩ := p
    simp only [ne_eq, decide_not] at ih
    simp only [List.filter_cons, ne_eq, decide_not, decide_eq_true_eq]
    by_cases hx : x = k
    · simp [hx, ih]
    · simp [hx, assocFind, ih]

theorem saddAll_nil (s : List String) : saddAll s [] = s := rfl

theorem mem_saddAll (s new : List String) (u : String) :
    u ∈ saddAll s new ↔ u ∈ s ∨ u ∈ new := by
  induction new generalizing s with
  | nil => simp [saddAll]
  | cons x xs ih =>
    show u ∈ saddAll (if x ∈ s then s else s ++ [x]) xs ↔ _
    rw [ih]
    by_cases hx : x ∈ s
    · simp [hx]
      constructor
      · rintro (h | h)
        · exact Or.inl h
        · exact Or.inr (Or.inr h)
      · rintro (h | h | h)
        · exact Or.inl h
        · exact Or.inl (h ▸ hx)
        · exact Or.inr h
    · simp [hx, or_assoc]

/-! ### Delivery-loop lemmas -/

theorem notify_loop_newlyUrls (send : Item → SendOutcome) (l : List Item) :
    (notify_loop send l).newlyUrls = (notify_loop send l).sentItems.map urlOf := by
  induction l with
  | nil => rfl
  | cons it rest ih =>
    cases h : send it <;> simp [notify_loop, h, ih]

theorem notify_loop_sent_mem (send : Item → SendOutcome) (l : List Item) (it : Item)
    (h : it ∈ (notify_loop send l).sentItems) : send it = .success ∧ it ∈ l := by
  induction l with
  | nil => simp [notify_loop] at h
  | cons x rest ih =>
    cases hx : send x with
    | forbidden => simp [notify_loop, hx] at h
    | success =>
      simp [notify_loop, hx] at h
      rcases h with h | h
      · subst h; exact ⟨hx, List.mem_cons_self _ _⟩
      · obtain ⟨h1, h2⟩ := ih h
        exact ⟨h1, List.mem_cons_of_mem _ h2⟩
    | failed =>
      simp [notify_loop, hx] at h
      obtain ⟨h1, h2⟩ := ih h
      exact ⟨h1, List.mem_cons_of_mem _ h2⟩

theorem notify_loop_scheduleRemoval_iff (send : Item → SendOutcome) (l : List Item) :
    (notify_loop send l).scheduleRemoval = true ↔ ∃ it ∈ l, send it = .forbidden := by
  induction l with
  | nil => simp [notify_loop]
  | cons x rest ih =>
    cases hx : send x with
    | forbidden =>
      simp only [notify_loop, hx]
      exact ⟨fun _ => ⟨x, List.mem_cons_self _ _, hx⟩, fun _ => trivial⟩
    | success => simp [notify_loop, hx, ih]
    | failed => simp [notify_loop, hx, ih]

theorem notify_loop_all_success (send : Item → SendOutcome) (l : List Item)
    (h : ∀ it ∈ l, send it = .success) :
    notify_loop send l = ⟨l, l.map urlOf, false⟩ := by
  induction l with
  | nil => rfl
  | cons x rest ih =>
    have hx : send x = .success := h x (List.mem_cons_self _ _)
    have hrest := ih fun it hit => h it (List.mem_cons_of_mem _ hit)
    simp [notify_loop, hx, hrest]

theorem notify_loop_sent_eq_attempted_filter (send : Item → SendOutcome) (l : List Item) :
    (notify_loop send l).sentItems =
      (attempted send l).filter fun it => decide (send it = .success) := by
  induction l with
  | nil => rfl
  | cons x rest ih =>
    cases hx : send x <;> simp [notify_loop, attempted, hx, ih]

theorem attempted_subset (send : Item → SendOutcome) (l : List Item) (it : Item)
    (h : it ∈ attempted send l) : it ∈ l := by
  induction l with
  | nil => simp [attempted] at h
  | cons x rest ih =>
    cases hx : send x with
    | forbidden =>
      simp [attempted, hx] at h
      simp [h]
    | success =>
      simp [attempted, hx] at h
      rcases h with h | h
      · simp [h]
      · exact List.mem_cons_of_mem _ (ih h)
    | failed =>
      simp [attempted, hx] at h
      rcases h with h | h
      · simp [h]
      · exact List.mem_cons_of_mem _ (ih h)

theorem attempted_stops_at_forbidden (send : Item → SendOutcome) (l1 : List Item) (x : Item)
    (l2 : List Item) (h1 : ∀ y ∈ l1, send y ≠ .forbidden) (hx : send x = .forbidden) :
    attempted send (l1 ++ x :: l2) = l1 ++ [x] := by
  induction l1 with
  | nil => simp [attempted, hx]
  | cons y ys ih =>
    have hy : send y ≠ .forbidden := h1 y (List.mem_cons_self _ _)
    have hys := ih fun z hz => h1 z (List.mem_cons_of_mem _ hz)
    cases hsy : send y with
    | forbidden => exact absurd hsy hy
    | success => simp [attempted, hsy, hys]
    | failed => simp [attempted, hsy, hys]

/-! ### Grouping lemmas -/

theorem keysFold_mem (ps : List (String × ParsedTask)) (acc : List ScrapeKey) (k : ScrapeKey) :
    k ∈ ps.foldl
        (fun acc p =>
          if truthy p.2.platform && truthy p.2.query then
            if scrapeKeyOf p.2 ∈ acc then acc else acc ++ [scrapeKeyOf p.2]
          else acc) acc ↔
      k ∈ acc ∨ ∃ p ∈ ps,
        (truthy p.2.platform && truthy p.2.query) = true ∧ scrapeKeyOf p.2 = k := by
  induction ps generalizing acc with
  | nil => simp
  | cons p rest ih =>
    rw [List.foldl_cons, ih]
    have hsplit :
        (∃ q ∈ p :: rest, (truthy q.2.platform && truthy q.2.query) = true ∧
            scrapeKeyOf q.2 = k) ↔
          ((truthy p.2.platform && truthy p.2.query) = true ∧ scrapeKeyOf p.2 = k) ∨
            ∃ q ∈ rest, (truthy q.2.platform && truthy q.2.query) = true ∧
              scrapeKeyOf q.2 = k :=
      List.exists_mem_cons_iff _ p rest
    rw [hsplit]
    by_cases hv : (truthy p.2.platform && truthy p.2.query) = true
    · by_cases hk : scrapeKeyOf p.2 ∈ acc
      · rw [if_pos hv, if_pos hk]
        have hback : ((truthy p.2.platform && truthy p.2.query) = true ∧
            scrapeKeyOf p.2 = k) → k ∈ acc := fun h => h.2 ▸ hk
        constructor
        · rintro (h | h)
          · exact Or.inl h
          · exact Or.inr (Or.inr h)
        · rintro (h | h | h)
          · exact Or.inl h
          · exact Or.inl (hback h)
          · exact Or.inr h
      · rw [if_pos hv, if_neg hk]
        have hmem : k ∈ acc ++ [scrapeKeyOf p.2] ↔ k ∈ acc ∨ k = scrapeKeyOf p.2 := by
          simp
        rw [hmem]
        constructor
        · rintro ((h | h) | h)
          · exact Or.inl h
          · exact Or.inr (Or.inl ⟨hv, h.symm⟩)
          · exact Or.inr (Or.inr h)
        · rintro (h | h | h)
          · exact Or.inl (Or.inl h)
          · exact Or.inl (Or.inr h.2.symm)
          · exact Or.inr h
    · rw [if_neg hv]
      constructor
      · rintro (h | h)
        · exact Or.inl h
        · exact Or.inr (Or.inr h)
      · rintro (h | h | h)
        · exact Or.inl h
        · exact absurd h.1 hv
        · exact Or.inr h

theorem mem_keys_in_order (ps : List (String × ParsedTask)) (k : ScrapeKey) :
    k ∈ keys_in_order ps ↔
      ∃ p ∈ ps, (truthy p.2.platform && truthy p.2.query) = true ∧ scrapeKeyOf p.2 = k := by
  rw [keys_in_order, keysFold_mem]
  simp

theorem keysFold_nodup (ps : List (String × ParsedTask)) (acc : List ScrapeKey)
    (hacc : acc.Nodup) :
    (ps.foldl
        (fun acc p =>
          if truthy p.2.platform && truthy p.2.query then
            if scrapeKeyOf p.2 ∈ acc then acc else acc ++ [scrapeKeyOf p.2]
          else acc) acc).Nodup := by
  induction ps generalizing acc with
  | nil => exact hacc
  | cons p rest ih =>
    rw [List.foldl_cons]
    apply ih
    by_cases hv : (truthy p.2.platform && truthy p.2.query) = true
    · by_cases hk : scrapeKeyOf p.2 ∈ acc
      · rw [if_pos hv, if_pos hk]; exact hacc
      · rw [if_pos hv, if_neg hk]
        refine List.Nodup.append hacc (List.nodup_singleton _) ?_
        intro b hb hb2
        rw [List.mem_singleton] at hb2
        exact hk (hb2 ▸ hb)
    · rw [if_neg hv]; exact hacc

theorem keys_in_order_nodup (ps : List (String × ParsedTask)) : (keys_in_order ps).Nodup :=
  keysFold_nodup ps [] List.nodup_nil

/-- Looking up `scraped_items_map` returns the normalized scrape of the key,
when the key was scheduled at all. -/
theorem assocFind_map_keys {β : Type} (keys : List ScrapeKey) (g : ScrapeKey → β)
    (a : ScrapeKey) :
    assocFind (keys.map fun k => (k, g k)) a = if a ∈ keys then some (g a) else none := by
  induction keys with
  | nil => simp [assocFind]
  | cons k rest ih =>
    rw [List.map_cons, assocFind, ih]
    by_cases hk : k = a
    · subst hk
      simp
    · have hne : ¬ a = k := fun hh => hk hh.symm
      simp [hk, hne]

/-! ### Parsed-task key lemmas -/

theorem parsedTasks_keys_sublist (tasks : List (String × TaskHash)) :
    ((parsedTasks tasks).map Prod.fst).Sublist (tasks.map Prod.fst) := by
  induction tasks with
  | nil => simp [parsedTasks]
  | cons p rest ih =>
    rw [parsedTasks, List.filterMap_cons]
    rw [parsedTasks] at ih
    cases h : parse_task_hash p.2 with
    | none => exact ih.cons _
    | some t => exact ih.cons₂ _

theorem parsedTasks_keys_nodup (tasks : List (String × TaskHash))
    (h : (tasks.map Prod.fst).Nodup) : ((parsedTasks tasks).map Prod.fst).Nodup :=
  (parsedTasks_keys_sublist tasks).nodup h

theorem mem_unique_of_keys_nodup {α β : Type} (ps : List (α × β)) (tid : α)
    (t t' : β) (hnd : (ps.map Prod.fst).Nodup)
    (h1 : (tid, t) ∈ ps) (h2 : (tid, t') ∈ ps) : t = t' := by
  induction ps with
  | nil => simp at h1
  | cons p rest ih =>
    rw [List.map_cons, List.nodup_cons] at hnd
    obtain ⟨hp, hrest⟩ := hnd
    rcases List.mem_cons.mp h1 with e1 | m1
    · rcases List.mem_cons.mp h2 with e2 | m2
      · exact congrArg Prod.snd (e1.trans e2.symm)
      · exfalso
        apply hp
        rw [← e1]
        simpa using List.mem_map_of_mem Prod.fst m2
    · rcases List.mem_cons.mp h2 with e2 | m2
      · exfalso
        apply hp
        rw [← e2]
        simpa using List.mem_map_of_mem Prod.fst m1
      · exact ih hrest m1 m2

theorem keys_split {α β : Type} (l1 l2 : List (α × β)) (k : α) (b : β)
    (hnd : ((l1 ++ (k, b) :: l2).map Prod.fst).Nodup) :
    (∀ p ∈ l1, p.1 ≠ k) ∧ (∀ p ∈ l2, p.1 ≠ k) := by
  induction l1 with
  | nil =>
    rw [List.nil_append, List.map_cons, List.nodup_cons] at hnd
    refine ⟨by simp, fun p hp he => hnd.1 ?_⟩
    simp only [List.mem_map]
    exact ⟨p, hp, he⟩
  | cons q qs ih =>
    rw [List.cons_append, List.map_cons, List.nodup_cons] at hnd
    obtain ⟨hqs, hl2⟩ := ih hnd.2
    refine ⟨?_, hl2⟩
    intro p hp he
    rcases List.mem_cons.mp hp with e | hp'
    · apply hnd.1
      have hqk : q.1 = k := by rw [← e]; exact he
      rw [hqk]
      exact List.mem_map_of_mem Prod.fst
        (show ((k, b) : α × β) ∈ qs ++ (k, b) :: l2 by simp)
    · exact hqs p hp' he

/-! ### Per-step store lemmas -/

theorem add_notified_items_tasks (st : Store) (tid : String) (urls : List String) :
    (add_notified_items st tid urls).tasks = st.tasks := by
  rw [add_notified_items]; split_ifs <;> rfl

theorem add_notified_items_chatTasks (st : Store) (tid : String) (urls : List String) :
    (add_notified_items st tid urls).chatTasks = st.chatTasks := by
  rw [add_notified_items]; split_ifs <;> rfl

theorem add_notified_items_notified_other (st : Store) (tid : String) (urls : List String)
    (tid' : String) (h : tid' ≠ tid) :
    assocFind (add_notified_items st tid urls).notified tid' =
      assocFind st.notified tid' := by
  rw [add_notified_items]
  split_ifs with h1
  · rfl
  · show assocFind (assocSet st.notified tid _) tid' = _
    rw [assocFind_assocSet, if_neg fun hh => h hh.symm]

theorem cycleStep_store_tasks (send : String → Item → SendOutcome)
    (snap : List (String × List String)) (smap : List (ScrapeKey × ScrapeRaw))
    (acc : CycleAcc) (p : String × ParsedTask) :
    (cycleStep send snap smap acc p).store.tasks = acc.store.tasks := by
  simp only [cycleStep]
  split_ifs <;> simp [add_notified_items_tasks]

theorem cycleStep_store_chatTasks (send : String → Item → SendOutcome)
    (snap : List (String × List String)) (smap : List (ScrapeKey × ScrapeRaw))
    (acc : CycleAcc) (p : String × ParsedTask) :
    (cycleStep send snap smap acc p).store.chatTasks = acc.store.chatTasks := by
  simp only [cycleStep]
  split_ifs <;> simp [add_notified_items_chatTasks]

theorem cycleStep_notifs (send : String → Item → SendOutcome)
    (snap : List (String × List String)) (smap : List (ScrapeKey × ScrapeRaw))
    (acc : CycleAcc) (p : String × ParsedTask) :
    (cycleStep send snap smap acc p).notifs =
      acc.notifs ++ (watchW send snap smap p).sentItems.map fun it => (p.1, it) := rfl

theorem cycleStep_removals_mem (send : String → Item → SendOutcome)
    (snap : List (String × List String)) (smap : List (ScrapeKey × ScrapeRaw))
    (acc : CycleAcc) (p : String × ParsedTask) (r : String × Int) :
    r ∈ (cycleStep send snap smap acc p).removals ↔
      r ∈ acc.removals ∨
        ((watchW send snap smap p).scheduleRemoval = true ∧ r = (p.1, p.2.chat_id)) := by
  simp only [cycleStep]
  by_cases hs : (watchW send snap smap p).scheduleRemoval = true
  · rw [if_pos hs]
    by_cases hmem : (p.1, p.2.chat_id) ∈ acc.removals
    · rw [if_pos hmem]
      constructor
      · exact Or.inl
      · rintro (h | ⟨_, rfl⟩)
        · exact h
        · exact hmem
    · rw [if_neg hmem, List.mem_append, List.mem_singleton]
      constructor
      · rintro (h | h)
        · exact Or.inl h
        · exact Or.inr ⟨hs, h⟩
      · rintro (h | ⟨_, rfl⟩)
        · exact Or.inl h
        · exact Or.inr rfl
  · rw [if_neg hs]
    constructor
    · exact Or.inl
    · rintro (h | ⟨hc, _⟩)
      · exact h
      · exact absurd hc hs

theorem cycleStep_notified_other (send : String → Item → SendOutcome)
    (snap : List (String × List String)) (smap : List (ScrapeKey × ScrapeRaw))
    (acc : CycleAcc) (p : String × ParsedTask) (tid : String) (h : p.1 ≠ tid) :
    assocFind (cycleStep send snap smap acc p).store.notified tid =
      assocFind acc.store.notified tid := by
  simp only [cycleStep]
  split_ifs
  any_goals rfl
  all_goals exact add_notified_items_notified_other _ _ _ _ fun hh => h hh.symm

theorem cycleStep_notified_self (send : String → Item → SendOutcome)
    (snap : List (String × List String)) (smap : List (ScrapeKey × ScrapeRaw))
    (acc : CycleAcc) (p : String × ParsedTask)
    (hnr : (p.1, p.2.chat_id) ∉ acc.removals) :
    assocFind (cycleStep send snap smap acc p).store.notified p.1 =
      if (watchW send snap smap p).scheduleRemoval = false ∧
          (watchW send snap smap p).newlyUrls ≠ [] then
        some (saddAll (seenOf acc.store p.1) (watchW send snap smap p).newlyUrls)
      else assocFind acc.store.notified p.1 := by
  simp only [cycleStep]
  by_cases hs : (watchW send snap smap p).scheduleRemoval = true
  · rw [if_pos hs]
    have hin : (p.1, p.2.chat_id) ∈
        (if (p.1, p.2.chat_id) ∈ acc.removals then acc.removals
         else acc.removals ++ [(p.1, p.2.chat_id)]) := by
      by_cases hmem : (p.1, p.2.chat_id) ∈ acc.removals
      · rw [if_pos hmem]; exact hmem
      · rw [if_neg hmem]; simp
    rw [if_neg fun hc => hc.1 hin, if_neg fun hc => by rw [hs] at hc; exact absurd hc.1 (by simp)]
  · rw [if_neg hs]
    have hsf : (watchW send snap smap p).scheduleRemoval = false := by
      revert hs
      cases (watchW send snap smap p).scheduleRemoval <;> simp
    by_cases hn : (watchW send snap smap p).newlyUrls = []
    · rw [if_neg fun hc => hc.2 hn, if_neg fun hc => hc.2 hn]
    · rw [if_pos ⟨hnr, hn⟩, if_pos ⟨hsf, hn⟩]
      rw [add_notified_items]
      rw [if_neg (by simpa using hn)]
      show assocFind (assocSet acc.store.notified p.1 _) p.1 = _
      rw [assocFind_assocSet, if_pos rfl]

/-! ### Cycle-fold lemmas -/

theorem cycleFold_tasks (send : String → Item → SendOutcome)
    (snap : List (String × List String)) (smap : List (ScrapeKey × ScrapeRaw))
    (ps : List (String × ParsedTask)) (acc : CycleAcc) :
    (ps.foldl (cycleStep send snap smap) acc).store.tasks = acc.store.tasks := by
  induction ps generalizing acc with
  | nil => rfl
  | cons p rest ih => rw [List.foldl_cons, ih, cycleStep_store_tasks]

theorem cycleFold_chatTasks (send : String → Item → SendOutcome)
    (snap : List (String × List String)) (smap : List (ScrapeKey × ScrapeRaw))
    (ps : List (String × ParsedTask)) (acc : CycleAcc) :
    (ps.foldl (cycleStep send snap smap) acc).store.chatTasks = acc.store.chatTasks := by
  induction ps generalizing acc with
  | nil => rfl
  | cons p rest ih => rw [List.foldl_cons, ih, cycleStep_store_chatTasks]

theorem cycleFold_notifs (send : String → Item → SendOutcome)
    (snap : List (String × List String)) (smap : List (ScrapeKey × ScrapeRaw))
    (ps : List (String × ParsedTask)) (acc : CycleAcc) :
    (ps.foldl (cycleStep send snap smap) acc).notifs =
      acc.notifs ++
        (ps.map fun p =>
          (watchW send snap smap p).sentItems.map fun it => (p.1, it)).flatten := by
  induction ps generalizing acc with
  | nil => simp
  | cons p rest ih =>
    rw [List.foldl_cons, ih, cycleStep_notifs, List.map_cons, List.flatten_cons,
      List.append_assoc]

theorem cycleFold_removals_mem (send : String → Item → SendOutcome)
    (snap : List (String × List String)) (smap : List (ScrapeKey × ScrapeRaw))
    (ps : List (String × ParsedTask)) (acc : CycleAcc) (r : String × Int) :
    r ∈ (ps.foldl (cycleStep send snap smap) acc).removals ↔
      r ∈ acc.removals ∨
        ∃ p ∈ ps, (watchW send snap smap p).scheduleRemoval = true ∧
          r = (p.1, p.2.chat_id) := by
  induction ps generalizing acc with
  | nil => simp
  | cons p rest ih =>
    rw [List.foldl_cons, ih, cycleStep_removals_mem]
    rw [List.exists_mem_cons_iff
      (fun q => (watchW send snap smap q).scheduleRemoval = true ∧ r = (q.1, q.2.chat_id))]
    constructor
    · rintro ((h | h) | h)
      · exact Or.inl h
      · exact Or.inr (Or.inl h)
      · exact Or.inr (Or.inr h)
    · rintro (h | h | h)
      · exact Or.inl (Or.inl h)
      · exact Or.inl (Or.inr h)
      · exact Or.inr h

theorem cycleFold_notified_other (send : String → Item → SendOutcome)
    (snap : List (String × List String)) (smap : List (ScrapeKey × ScrapeRaw))
    (ps : List (String × ParsedTask)) :
    ∀ (acc : CycleAcc) (tid : String), (∀ p ∈ ps, p.1 ≠ tid) →
      assocFind (ps.foldl (cycleStep send snap smap) acc).store.notified tid =
        assocFind acc.store.notified tid := by
  induction ps with
  | nil => intro acc tid _; rfl
  | cons p rest ih =>
    intro acc tid h
    rw [List.foldl_cons, ih _ tid fun q hq => h q (List.mem_cons_of_mem _ hq),
      cycleStep_notified_other send snap smap acc p tid (h p (List.mem_cons_self _ _))]

theorem cycleFold_notified_split (send : String → Item → SendOutcome)
    (snap : List (String × List String)) (smap : List (ScrapeKey × ScrapeRaw))
    (l1 l2 : List (String × ParsedTask)) (tid : String) (t : ParsedTask) (st : Store)
    (h1 : ∀ p ∈ l1, p.1 ≠ tid) (h2 : ∀ p ∈ l2, p.1 ≠ tid) :
    assocFind
        ((l1 ++ (tid, t) :: l2).foldl (cycleStep send snap smap)
          ⟨st, [], []⟩).store.notified tid =
      if (watchW send snap smap (tid, t)).scheduleRemoval = false ∧
          (watchW send snap smap (tid, t)).newlyUrls ≠ [] then
        some (saddAll (seenOf st tid) (watchW send snap smap (tid, t)).newlyUrls)
      else assocFind st.notified tid := by
  rw [List.foldl_append, List.foldl_cons]
  have hA :
      assocFind (l1.foldl (cycleStep send snap smap) ⟨st, [], []⟩).store.notified tid =
        assocFind st.notified tid :=
    cycleFold_notified_other send snap smap l1 _ tid h1

  have hR : (tid, t.chat_id) ∉ (l1.foldl (cycleStep send snap smap) ⟨st, [], []⟩).removals := by
    rw [cycleFold_removals_mem]
    rintro (h | ⟨p, hp, _, he⟩)
    · simp at h
    · exact h1 p hp (congrArg Prod.fst he).symm
  rw [cycleFold_notified_other send snap smap l2 _ tid h2]
  rw [cycleStep_notified_self send snap smap _ (tid, t) hR]
  rw [seenOf, hA]
  rfl

/-! ### Removal-fold lemmas -/

theorem remove_task_tasks_other (st : Store) (tid : String) (c : Int) (tid' : String)
    (h : tid' ≠ tid) :
    assocFind (remove_task st tid c).1.tasks tid' = assocFind st.tasks tid' := by
  rw [remove_task]
  split_ifs
  · exact assocFind_filter_ne _ _ _ h
  · rfl

theorem remove_task_notified_other (st : Store) (tid : String) (c : Int) (tid' : String)
    (h : tid' ≠ tid) :
    assocFind (remove_task st tid c).1.notified tid' = assocFind st.notified tid' := by
  rw [remove_task]
  split_ifs
  · exact assocFind_filter_ne _ _ _ h
  · rfl

theorem remove_task_tasks_none (st : Store) (tid : String) (c : Int) (tid' : String)
    (h : assocFind st.tasks tid' = none) :
    assocFind (remove_task st tid c).1.tasks tid' = none := by
  rw [remove_task]
  split_ifs
  · exact assocFind_filter_none _ _ _ h
  · exact h

theorem remove_task_notified_none (st : Store) (tid : String) (c : Int) (tid' : String)
    (h : assocFind st.notified tid' = none) :
    assocFind (remove_task st tid c).1.notified tid' = none := by
  rw [remove_task]
  split_ifs
  · exact assocFind_filter_none _ _ _ h
  · exact h

theorem remove_task_chat_keeps (st : Store) (tid' : String) (c' : Int) (tid : String)
    (c : Int) (htid : tid ≠ tid')
    (h : tid ∈ (assocFind st.chatTasks c).getD []) :
    tid ∈ (assocFind (remove_task st tid' c').1.chatTasks c).getD [] := by
  rw [remove_task]
  split_ifs
  case neg => exact h
  case pos =>
    show tid ∈ (assocFind (assocSet st.chatTasks c' _) c).getD []
    rw [assocFind_assocSet]
    by_cases hc : c' = c
    · subst hc
      rw [if_pos rfl]
      simp only [Option.getD_some]
      rw [List.mem_filter]
      refine ⟨h, by simpa using htid⟩
    · rw [if_neg hc]
      exact h

theorem removeFold_tasks_none (rs : List (String × Int)) (s : Store) (tid : String)
    (h : assocFind s.tasks tid = none) :
    assocFind (rs.foldl (fun s r => (remove_task s r.1 r.2).1) s).tasks tid = none := by
  induction rs generalizing s with
  | nil => exact h
  | cons r rest ih => exact ih _ (remove_task_tasks_none _ _ _ _ h)

theorem removeFold_notified_none (rs : List (String × Int)) (s : Store) (tid : String)
    (h : assocFind s.notified tid = none) :
    assocFind (rs.foldl (fun s r => (remove_task s r.1 r.2).1) s).notified tid = none := by
  induction rs generalizing s with
  | nil => exact h
  | cons r rest ih => exact ih _ (remove_task_notified_none _ _ _ _ h)

theorem removeFold_tasks_other (rs : List (String × Int)) (s : Store) (tid : String)
    (h : ∀ r ∈ rs, r.1 ≠ tid) :
    assocFind (rs.foldl (fun s r => (remove_task s r.1 r.2).1) s).tasks tid =
      assocFind s.tasks tid := by
  induction rs generalizing s with
  | nil => rfl
  | cons r rest ih =>
    rw [List.foldl_cons, ih _ fun q hq => h q (List.mem_cons_of_mem _ hq),
      remove_task_tasks_other _ _ _ _ fun hh => h r (List.mem_cons_self _ _) hh.symm]

theorem removeFold_notified_other (rs : List (String × Int)) (s : Store) (tid : String)
    (h : ∀ r ∈ rs, r.1 ≠ tid) :
    assocFind (rs.foldl (fun s r => (remove_task s r.1 r.2).1) s).notified tid =
      assocFind s.notified tid := by
  induction rs generalizing s with
  | nil => rfl
  | cons r rest ih =>
    rw [List.foldl_cons, ih _ fun q hq => h q (List.mem_cons_of_mem _ hq),
      remove_task_notified_other _ _ _ _ fun hh => h r (List.mem_cons_self _ _) hh.symm]

theorem remove_task_deletes (st : Store) (tid : String) (c : Int)
    (hchat : tid ∈ (assocFind st.chatTasks c).getD []) :
    assocFind (remove_task st tid c).1.tasks tid = none ∧
      assocFind (remove_task st tid c).1.notified tid = none := by
  rw [remove_task]
  rw [if_neg (by simpa using hchat)]
  exact ⟨assocFind_filter_self _ _, assocFind_filter_self _ _⟩

theorem removeFold_deletes (rs : List (String × Int)) (s : Store) (tid : String) (c : Int)
    (hmem : (tid, c) ∈ rs) (hoth : ∀ r ∈ rs, r.1 = tid → r = (tid, c))
    (hchat : tid ∈ (assocFind s.chatTasks c).getD []) :
    assocFind (rs.foldl (fun s r => (remove_task s r.1 r.2).1) s).tasks tid = none ∧
      assocFind (rs.foldl (fun s r => (remove_task s r.1 r.2).1) s).notified tid = none := by
  induction rs generalizing s with
  | nil => simp at hmem
  | cons r rest ih =>
    rw [List.foldl_cons]
    by_cases hr : r = (tid, c)
    · subst hr
      obtain ⟨ht, hn⟩ := remove_task_deletes s tid c hchat
      exact ⟨removeFold_tasks_none _ _ _ ht, removeFold_notified_none _ _ _ hn⟩
    · have hmem' : (tid, c) ∈ rest := by
        rcases List.mem_cons.mp hmem with he | hm
        · exact absurd he.symm hr
        · exact hm
      have hr1 : r.1 ≠ tid := fun he => hr (hoth r (List.mem_cons_self _ _) he)
      exact ih _ hmem' (fun q hq => hoth q (List.mem_cons_of_mem _ hq))
        (remove_task_chat_keeps s r.1 r.2 tid c (fun hh => hr1 hh.symm) hchat)

/-! ### Watch-level lemmas and the per-task cycle equation -/

theorem runWatch_success_only (send : Item → SendOutcome) (t : ParsedTask)
    (seen : List String) (scraped : Option ScrapeRaw) (it : Item)
    (h : it ∈ (runWatch send t seen scraped).sentItems) : send it = .success := by
  rw [runWatch.eq_def] at h
  by_cases h1 : (!essentialsOk t) = true
  · rw [if_pos h1] at h
    exact absurd h (List.not_mem_nil it)
  · rw [if_neg h1] at h
    cases scraped with
    | none => exact absurd h (List.not_mem_nil it)
    | some sr =>
      cases sr with
      | exc => exact absurd h (List.not_mem_nil it)
      | noneResult => exact absurd h (List.not_mem_nil it)
      | items xs =>
        have h' : it ∈ (if xs.isEmpty = true then
            ({ sentItems := [], newlyUrls := [], scheduleRemoval := false } : WatchOutcome)
          else notify_loop send
            (items_to_notify t.max_price t.max_minutes_left seen xs)).sentItems := h
        by_cases hxs : xs.isEmpty = true
        · rw [if_pos hxs] at h'
          exact absurd h' (List.not_mem_nil it)
        · rw [if_neg hxs] at h'
          exact (notify_loop_sent_mem send _ it h').1

theorem runWatch_no_forbidden (send : Item → SendOutcome) (t : ParsedTask)
    (seen : List String) (scraped : Option ScrapeRaw)
    (h : ∀ it, send it ≠ .forbidden) :
    (runWatch send t seen scraped).scheduleRemoval = false := by
  rw [runWatch.eq_def]
  by_cases h1 : (!essentialsOk t) = true
  · rw [if_pos h1]
  · rw [if_neg h1]
    cases scraped with
    | none => rfl
    | some sr =>
      cases sr with
      | exc => rfl
      | noneResult => rfl
      | items xs =>
        show (if xs.isEmpty = true then
            ({ sentItems := [], newlyUrls := [], scheduleRemoval := false } : WatchOutcome)
          else notify_loop send
            (items_to_notify t.max_price t.max_minutes_left seen xs)).scheduleRemoval = false
        by_cases hxs : xs.isEmpty = true
        · rw [if_pos hxs]
        · rw [if_neg hxs]
          cases hb : (notify_loop send (items_to_notify t.max_price t.max_minutes_left
              seen xs)).scheduleRemoval with
          | false => rfl
          | true =>
            obtain ⟨it, _, hf⟩ := (notify_loop_scheduleRemoval_iff send _).mp hb
            exact absurd hf (h it)

theorem cycle_no_tid_removals (st : Store) (f : ScrapeKey → ScrapeRaw)
    (send : String → Item → SendOutcome) (tid : String) (t : ParsedTask)
    (hmem : (tid, t) ∈ parsedTasks st.tasks) (hnd : (st.tasks.map Prod.fst).Nodup)
    (hnof : (watchOutcomeOf st f send tid t).scheduleRemoval = false) :
    ∀ r ∈ ((parsedTasks st.tasks).foldl
        (cycleStep send st.notified (scrapedMapOf (parsedTasks st.tasks) f))
        ⟨st, [], []⟩).removals, r.1 ≠ tid := by
  intro r hr he
  rw [cycleFold_removals_mem] at hr
  rcases hr with hr | ⟨p, hp, hsr, hre⟩
  · simp at hr
  · have hp1 : p.1 = tid := by rw [hre] at he; exact he
    have hpt : p.2 = t := by
      refine mem_unique_of_keys_nodup (parsedTasks st.tasks) tid p.2 t
        (parsedTasks_keys_nodup _ hnd) ?_ hmem
      rw [← hp1]
      exact hp
    rw [watchOutcomeOf] at hnof
    have : watchW send st.notified (scrapedMapOf (parsedTasks st.tasks) f) p =
        watchW send st.notified (scrapedMapOf (parsedTasks st.tasks) f) (tid, t) := by
      rw [show p = (tid, t) from Prod.ext hp1 hpt]
    rw [this, hnof] at hsr
    simp at hsr

theorem cycle_notified_eq (st : Store) (f : ScrapeKey → ScrapeRaw)
    (send : String → Item → SendOutcome) (tid : String) (t : ParsedTask)
    (hmem : (tid, t) ∈ parsedTasks st.tasks) (hnd : (st.tasks.map Prod.fst).Nodup)
    (hnof : (watchOutcomeOf st f send tid t).scheduleRemoval = false) :
    assocFind (check_monitoring_tasks st (.done f) send).1.notified tid =
      if (watchOutcomeOf st f send tid t).newlyUrls ≠ [] then
        some (saddAll (seenOf st tid) (watchOutcomeOf st f send tid t).newlyUrls)
      else assocFind st.notified tid := by
  obtain ⟨l1, l2, hsplit⟩ := List.append_of_mem hmem
  have hnd' := parsedTasks_keys_nodup st.tasks hnd
  obtain ⟨h1, h2⟩ := keys_split l1 l2 tid t (by rw [← hsplit]; exact hnd')
  show assocFind
      (((parsedTasks st.tasks).foldl
          (cycleStep send st.notified (scrapedMapOf (parsedTasks st.tasks) f))
          ⟨st, [], []⟩).removals.foldl (fun s r => (remove_task s r.1 r.2).1)
        ((parsedTasks st.tasks).foldl
          (cycleStep send st.notified (scrapedMapOf (parsedTasks st.tasks) f))
          ⟨st, [], []⟩).store).notified tid = _
  rw [removeFold_notified_other _ _ _ (cycle_no_tid_removals st f send tid t hmem hnd hnof)]
  rw [watchOutcomeOf] at hnof ⊢
  rw [hsplit] at hnof ⊢
  rw [cycleFold_notified_split send st.notified (scrapedMapOf (l1 ++ (tid, t) :: l2) f)
    l1 l2 tid t st h1 h2]
  by_cases hn :
      (watchW send st.notified (scrapedMapOf (l1 ++ (tid, t) :: l2) f)
        (tid, t)).newlyUrls = []
  · rw [if_neg fun hc => hc.2 hn, if_neg fun hc => hc hn]
  · rw [if_pos ⟨hnof, hn⟩, if_pos hn]

theorem runWatch_main (send1 : Item → SendOutcome) (t : ParsedTask) (seen : List String)
    (xs : List Item) (hess : essentialsOk t = true) (hxs : xs.isEmpty = false) :
    runWatch send1 t seen (some (.items xs)) =
      notify_loop send1 (items_to_notify t.max_price t.max_minutes_left seen xs) := by
  rw [runWatch.eq_def]
  rw [if_neg (by rw [hess]; simp)]
  show (if xs.isEmpty = true then
      ({ sentItems := [], newlyUrls := [], scheduleRemoval := false } : WatchOutcome)
    else notify_loop send1 (items_to_notify t.max_price t.max_minutes_left seen xs)) = _
  rw [if_neg (by rw [hxs]; simp)]

theorem runWatch_sent_nil (send1 : Item → SendOutcome) (t : ParsedTask) (seen : List String)
    (scr : Option ScrapeRaw)
    (hcov : essentialsOk t = true → ∀ xs, scr = some (.items xs) → xs.isEmpty = false →
      ∀ it ∈ xs, item_matches t.max_price t.max_minutes_left it = true → urlOf it ∈ seen) :
    (runWatch send1 t seen scr).sentItems = [] := by
  rw [runWatch.eq_def]
  by_cases h1 : (!essentialsOk t) = true
  · rw [if_pos h1]
  · rw [if_neg h1]
    have hess : essentialsOk t = true := by revert h1; cases essentialsOk t <;> simp
    cases scr with
    | none => rfl
    | some sr =>
      cases sr with
      | exc => rfl
      | noneResult => rfl
      | items xs =>
        show (if xs.isEmpty = true then
            ({ sentItems := [], newlyUrls := [], scheduleRemoval := false } : WatchOutcome)
          else notify_loop send1
            (items_to_notify t.max_price t.max_minutes_left seen xs)).sentItems = []
        by_cases hxs : xs.isEmpty = true
        · rw [if_pos hxs]
        · rw [if_neg hxs]
          have hxs' : xs.isEmpty = false := by revert hxs; cases xs.isEmpty <;> simp
          have hnil : items_to_notify t.max_price t.max_minutes_left seen xs = [] := by
            rw [items_to_notify, List.filter_eq_nil_iff]
            intro it hit
            by_cases hm : item_matches t.max_price t.max_minutes_left it = true
            · have hin := hcov hess xs rfl hxs' it hit hm
              simp [hm, hin]
            · simp [Bool.and_eq_true]
              intro hm'
              exact absurd hm' hm
          rw [hnil]
          rfl

theorem countP_eq_of_nodup {α : Type} [DecidableEq α] (l : List α) (a : α) (h : l.Nodup) :
    l.countP (fun x => decide (x = a)) = if a ∈ l then 1 else 0 := by
  induction l with
  | nil => simp
  | cons x rest ih =>
    rw [List.nodup_cons] at h
    by_cases hxa : x = a
    · subst hxa
      rw [List.countP_cons_of_pos _ _ (by simp), ih h.2, if_neg h.1,
        if_pos (List.mem_cons_self _ _)]
    · rw [List.countP_cons_of_neg _ _ (by simp [hxa]), ih h.2]
      by_cases ha : a ∈ rest
      · rw [if_pos ha, if_pos (List.mem_cons_of_mem _ ha)]
      · rw [if_neg ha, if_neg ?_]
        rw [List.mem_cons]
        rintro (h1 | h1)
        · exact hxa h1.symm
        · exact ha h1

/-! ### Claim theorems -/

/-- C2: within one cycle, the Item Source is invoked exactly once per
effective query key shared by at least one well-keyed parsed watch, and
zero times for any other key: the number of occurrences of a key `k` in
`keys_in_order` — the exact list of `scrape_zenmarket` invocations the
cycle performs — is `1` when some parsed task has truthy `platform` and
`query` and scrape key `k`, and `0` otherwise, no matter how many watches
share the key. -/
theorem C2_scrape_once_per_key (st : Store) (k : ScrapeKey) :
    (keys_in_order (parsedTasks st.tasks)).countP (fun k' => decide (k' = k)) =
      if (parsedTasks st.tasks).any (fun p =>
          (truthy p.2.platform && truthy p.2.query) && decide (scrapeKeyOf p.2 = k)) then 1
      else 0 := by
  have hiff : ((parsedTasks st.tasks).any fun p =>
      (truthy p.2.platform && truthy p.2.query) && decide (scrapeKeyOf p.2 = k)) = true ↔
      k ∈ keys_in_order (parsedTasks st.tasks) := by
    rw [List.any_eq_true, mem_keys_in_order]
    constructor
    · rintro ⟨p, hp, hb⟩
      rw [Bool.and_eq_true, decide_eq_true_eq] at hb
      exact ⟨p, hp, hb.1, hb.2⟩
    · rintro ⟨p, hp, hv, hk⟩
      exact ⟨p, hp, by rw [Bool.and_eq_true, decide_eq_true_eq]; exact ⟨hv, hk⟩⟩
  rw [countP_eq_of_nodup _ _ (keys_in_order_nodup _)]
  by_cases hmem : k ∈ keys_in_order (parsedTasks st.tasks)
  · rw [if_pos hmem, if_pos (hiff.mpr hmem)]
  · rw [if_neg hmem, if_neg fun hc => hmem (hiff.mp hc)]

/-- C3: an item matches a watch's criteria exactly when it has a truthy url
and a price, the price is at most `max_price`, and — when
`max_minutes_left` is set — its `minutes_left` is present, not the `-1`
"ended" sentinel, and at most `max_minutes_left`; with no time constraint
the price rule alone decides, regardless of `minutes_left`. -/
theorem C3_match_rule (mp : Rat) (mm : Option Nat) (it : Item) :
    item_matches mp mm it = true ↔
      ((∃ u, it.url = some u ∧ u ≠ "") ∧
       (∃ pr, it.price = some pr ∧ pr ≤ mp) ∧
       (∀ m, mm = some m →
         ∃ tl, it.minutes_left = some tl ∧ tl ≠ -1 ∧ tl ≤ (m : Int))) := by
  rw [item_matches]
  cases hu : it.url with
  | none =>
    simp [truthy]
  | some u =>
    cases hp : it.price with
    | none => simp [truthy]
    | some pr =>
      by_cases hue : u.data.isEmpty = true
      · have hu0 : u = "" := String.ext (by simpa using hue)
        subst hu0
        simp [truthy]
      · have hne : u ≠ "" := by
          intro hc
          subst hc
          simp at hue
        rw [if_neg (by simp [truthy, hue])]
        cases mm with
        | none =>
          simp only [Option.getD_some]
          constructor
          · intro hle
            refine ⟨⟨u, rfl, hne⟩, ⟨pr, rfl, by simpa using hle⟩, ?_⟩
            intro m hm
            exact absurd hm (by simp)
          · rintro ⟨_, ⟨pr', hpr', hle⟩, _⟩
            rw [Option.some.injEq] at hpr'
            subst hpr'
            simpa using hle
        | some m =>
          simp only [Option.getD_some]
          cases ht : it.minutes_left with
          | none =>
            constructor
            · intro hc
              simp at hc
            · rintro ⟨_, _, htl⟩
              obtain ⟨tl, htl', _⟩ := htl m rfl
              simp at htl'
          | some tl =>
            constructor
            · intro hc
              simp only [Bool.and_eq_true, decide_eq_true_eq] at hc
              refine ⟨⟨u, rfl, hne⟩, ⟨pr, rfl, hc.1⟩, fun m' hm' => ⟨tl, rfl, hc.2.1, ?_⟩⟩
              rw [← (Option.some.injEq m m').mp hm']
              exact hc.2.2
            · rintro ⟨_, ⟨pr', hpr', hle⟩, htl⟩
              rw [Option.some.injEq] at hpr'
              subst hpr'
              obtain ⟨tl', htl', hne1, hle1⟩ := htl m rfl
              rw [Option.some.injEq] at htl'
              subst htl'
              simp [hle, hne1, hle1]

/-- Witness for C3 at a concrete item and watch. -/
theorem C3_match_rule_witness :
    item_matches 1000 (some 30)
      { name := some "a", price := some 400, url := some "u1",
        minutes_left := some 10 } = true :=
  (C3_match_rule 1000 (some 30)
    { name := some "a", price := some 400, url := some "u1",
      minutes_left := some 10 }).mpr
    ⟨⟨"u1", rfl, by decide⟩, ⟨400, rfl, by norm_num⟩,
      fun m hm => ⟨10, rfl, by decide, by
        rw [show m = 30 from ((Option.some.injEq 30 m).mp hm).symm]; norm_num⟩⟩

/-- C4: an item whose url is already in the watch's Seen-Item set at cycle
start is never attempted for delivery in that cycle for that watch: it is
filtered out of `items_to_notify`, the only list the delivery loop runs
over. -/
theorem C4_no_redelivery (mp : Rat) (mm : Option Nat) (seen : List String)
    (xs : List Item) (send1 : Item → SendOutcome) (it : Item) (u : String)
    (hu : it.url = some u) (hseen : u ∈ seen) :
    it ∉ attempted send1 (items_to_notify mp mm seen xs) := by
  intro hmem
  have hlist := attempted_subset send1 _ it hmem
  rw [items_to_notify, List.mem_filter] at hlist
  have hpred := hlist.2
  rw [Bool.and_eq_true] at hpred
  have : urlOf it ∈ seen := by
    rw [urlOf, hu]
    exact hseen
  simp [this] at hpred

/-- Witness for C4 at a concrete already-seen item. -/
theorem C4_no_redelivery_witness :
    ({ price := some 100, url := some "u0" } : Item) ∉
      attempted (fun _ => .success)
        (items_to_notify 1000 none ["u0"] [{ price := some 100, url := some "u0" }]) :=
  C4_no_redelivery 1000 none ["u0"] [{ price := some 100, url := some "u0" }]
    (fun _ => .success) { price := some 100, url := some "u0" } "u0" rfl
    (by decide)

/-- C6: when the batch fetch hits the global timeout the whole cycle is
abandoned with no side effects — the store is returned unchanged and no
notification is sent — and a subsequent cycle from that store behaves
exactly as if the aborted cycle had never run. -/
theorem C6_timeout_aborts (st : Store) (send send2 : String → Item → SendOutcome)
    (fetch2 : FetchBatch) :
    check_monitoring_tasks st .timeout send = (st, []) ∧
      check_monitoring_tasks (check_monitoring_tasks st .timeout send).1 fetch2 send2 =
        check_monitoring_tasks st fetch2 send2 := ⟨rfl, rfl⟩

/-! ### Digit-string lemmas for `pyStr` / `get_distinct_chat_ids` -/

theorem digitChar_isDigit (d : Nat) : (digitChar d).isDigit = true := by
  rw [digitChar.eq_def]
  split <;> decide

theorem digitChar_toNat (d : Nat) (h : d < 10) : (digitChar d).toNat - 48 = d := by
  interval_cases d <;> rfl

theorem natDigits_ne_nil (n : Nat) : natDigits n ≠ [] := by
  rw [natDigits.eq_def]
  split_ifs <;> simp

theorem natDigits_all_digits (n : Nat) : (natDigits n).all Char.isDigit = true := by
  induction n using Nat.strong_induction_on with
  | _ n ih =>
    rw [natDigits.eq_def]
    split_ifs with h
    · simp [digitChar_isDigit]
    · rw [List.all_append, ih (n / 10) (Nat.div_lt_self (by omega) (by omega))]
      simp [digitChar_isDigit]

theorem digitsToNat_append (l : List Char) (c : Char) :
    digitsToNat (l ++ [c]) = digitsToNat l * 10 + (c.toNat - 48) := by
  rw [digitsToNat, digitsToNat, List.foldl_append]
  rfl

theorem digitsToNat_natDigits (n : Nat) : digitsToNat (natDigits n) = n := by
  induction n using Nat.strong_induction_on with
  | _ n ih =>
    rw [natDigits.eq_def]
    split_ifs with h
    · show digitsToNat [digitChar n] = n
      rw [digitsToNat]
      simp only [List.foldl_cons, List.foldl_nil, Nat.zero_mul, Nat.zero_add]
      exact digitChar_toNat n h
    · rw [digitsToNat_append, ih (n / 10) (Nat.div_lt_self (by omega) (by omega)),
        digitChar_toNat (n % 10) (Nat.mod_lt _ (by omega))]
      omega

theorem isDigits_natDigits (n : Nat) : isDigits (natDigits n) = true := by
  rw [isDigits, natDigits_all_digits]
  have := natDigits_ne_nil n
  cases hd : natDigits n with
  | nil => exact absurd hd this
  | cons c l => simp

theorem pyStr_neg (i : Int) (h : i < 0) : isDigits (pyStr i).data = false := by
  rw [pyStr]
  show isDigits (if i < 0 then '-' :: natDigits i.natAbs else natDigits i.natAbs) = false
  rw [if_pos h, isDigits]
  simp

theorem pyStr_nonneg_data (i : Int) (h : 0 ≤ i) : (pyStr i).data = natDigits i.natAbs := by
  rw [pyStr]
  show (if i < 0 then '-' :: natDigits i.natAbs else natDigits i.natAbs) = _
  rw [if_neg (by omega)]

/-- C9: within one cycle's batch, a failure on one query key is isolated:
if two scrapers agree on every key other than a bad one (on which one of
them may throw), every task whose key differs from the bad key is processed
identically under both; and any scheduled key whose scrape returned `None`
where a list was expected is recorded in the scraped map as the empty list
instead, so its own watches simply see no items. -/
theorem C9_failure_isolation (st : Store) (f g : ScrapeKey → ScrapeRaw)
    (send : String → Item → SendOutcome) (kbad : ScrapeKey) (tid : String)
    (t : ParsedTask)
    (hagree : ∀ k, k ≠ kbad → f k = g k) (hne : scrapeKeyOf t ≠ kbad) :
    watchW send st.notified (scrapedMapOf (parsedTasks st.tasks) f) (tid, t) =
      watchW send st.notified (scrapedMapOf (parsedTasks st.tasks) g) (tid, t) ∧
    (∀ k ∈ keys_in_order (parsedTasks st.tasks), f k = .noneResult →
      assocFind (scrapedMapOf (parsedTasks st.tasks) f) k = some (.items [])) := by
  constructor
  · rw [watchW, watchW]
    have hfind : assocFind (scrapedMapOf (parsedTasks st.tasks) f) (scrapeKeyOf t) =
        assocFind (scrapedMapOf (parsedTasks st.tasks) g) (scrapeKeyOf t) := by
      rw [scrapedMapOf, scrapedMapOf, assocFind_map_keys, assocFind_map_keys]
      by_cases hk : scrapeKeyOf t ∈ keys_in_order (parsedTasks st.tasks)
      · rw [if_pos hk, if_pos hk, hagree _ hne]
      · rw [if_neg hk, if_neg hk]
    show runWatch (send tid) t _ (assocFind _ (scrapeKeyOf t)) =
      runWatch (send tid) t _ (assocFind _ (scrapeKeyOf t))
    rw [hfind]
  · intro k hk hf
    rw [scrapedMapOf, assocFind_map_keys, if_pos hk, hf]
    rfl

/-- C10: `get_distinct_chat_ids` keeps only chat ids whose stored string
form consists entirely of digits: every returned id is nonnegative; a
negative chat id recorded in the `all_chats` index by `add_task` is
silently omitted; and a nonnegative chat id so recorded is returned. -/
theorem C10_digit_only_chat_ids (stored : List String) (i : Int) :
    (∀ x ∈ get_distinct_chat_ids stored, 0 ≤ x) ∧
      (i < 0 → get_distinct_chat_ids (add_task_all_chats i stored) =
        get_distinct_chat_ids stored) ∧
      (0 ≤ i → i ∈ get_distinct_chat_ids (add_task_all_chats i stored)) := by
  refine ⟨?_, ?_, ?_⟩
  · intro x hx
    rw [get_distinct_chat_ids, List.mem_map] at hx
    obtain ⟨s', _, rfl⟩ := hx
    exact Int.natCast_nonneg _
  · intro h
    rw [add_task_all_chats]
    split_ifs with hmem
    · rfl
    · rw [get_distinct_chat_ids, get_distinct_chat_ids, List.filter_append]
      have : List.filter (fun cid => isDigits cid.data) [pyStr i] = [] := by
        rw [List.filter_cons, pyStr_neg i h]
        simp
      rw [this, List.append_nil]
  · intro h
    have hdig : isDigits (pyStr i).data = true := by
      rw [pyStr_nonneg_data i h]
      exact isDigits_natDigits _
    have hval : (digitsToNat (pyStr i).data : Int) = i := by
      rw [pyStr_nonneg_data i h, digitsToNat_natDigits]
      omega
    rw [add_task_all_chats]
    split_ifs with hmem
    · rw [get_distinct_chat_ids, List.mem_map]
      exact ⟨pyStr i, List.mem_filter.mpr ⟨hmem, hdig⟩, hval⟩
    · rw [get_distinct_chat_ids, List.mem_map]
      refine ⟨pyStr i, List.mem_filter.mpr ⟨?_, hdig⟩, hval⟩
      rw [List.mem_append]
      exact Or.inr (List.mem_singleton.mpr rfl)

/-- Witness for C10 at a concrete negative group-chat id and store. -/
theorem C10_digit_only_chat_ids_witness :
    (-1001234 : Int) < 0 ∧
      get_distinct_chat_ids (add_task_all_chats (-1001234) ["42"]) =
        get_distinct_chat_ids ["42"] ∧
      (0 : Int) ≤ 42 ∧ (42 : Int) ∈ get_distinct_chat_ids (add_task_all_chats 42 ["77"]) :=
  ⟨by decide,
   (C10_digit_only_chat_ids ["42"] (-1001234)).2.1 (by decide),
   by decide,
   (C10_digit_only_chat_ids ["77"] 42).2.2 (by decide)⟩

/-- Witness for C9 at a concrete store, scrapers, and failing key. -/
theorem C9_failure_isolation_witness :
    watchW (fun _ _ => SendOutcome.success)
        (Store.mk [("1", { platform := some "mercari", query := some "q1" })] [] []).notified
        (scrapedMapOf
          (parsedTasks (Store.mk [("1", { platform := some "mercari", query := some "q1" })]
            [] []).tasks)
          fun k => if k = ((some "mercari", some "qbad", none) : ScrapeKey)
            then ScrapeRaw.exc
            else ScrapeRaw.items [{ price := some 50, url := some "u1" }])
        ("1", { id := 0, chat_id := 0, platform := some "mercari", query := some "q1",
                max_price := 0, sort_options := none, max_minutes_left := none }) =
      watchW (fun _ _ => SendOutcome.success)
        (Store.mk [("1", { platform := some "mercari", query := some "q1" })] [] []).notified
        (scrapedMapOf
          (parsedTasks (Store.mk [("1", { platform := some "mercari", query := some "q1" })]
            [] []).tasks)
          fun _ => ScrapeRaw.items [{ price := some 50, url := some "u1" }])
        ("1", { id := 0, chat_id := 0, platform := some "mercari", query := some "q1",
                max_price := 0, sort_options := none, max_minutes_left := none }) :=
  (C9_failure_isolation _ _ _ _ ((some "mercari", some "qbad", none) : ScrapeKey) "1" _
    (fun _ hk => if_neg hk) (by decide)).1

theorem runWatch_skip (send1 : Item → SendOutcome) (t : ParsedTask) (seen : List String)
    (scr : Option ScrapeRaw) (hess : essentialsOk t = false) :
    runWatch send1 t seen scr = ⟨[], [], false⟩ := by
  rw [runWatch.eq_def, if_pos (by rw [hess]; rfl)]

theorem runWatch_newlyUrls (send1 : Item → SendOutcome) (t : ParsedTask) (seen : List String)
    (scr : Option ScrapeRaw) :
    (runWatch send1 t seen scr).newlyUrls = (runWatch send1 t seen scr).sentItems.map urlOf := by
  rw [runWatch.eq_def]
  by_cases h1 : (!essentialsOk t) = true
  · rw [if_pos h1]
    rfl
  · rw [if_neg h1]
    cases scr with
    | none => rfl
    | some sr =>
      cases sr with
      | exc => rfl
      | noneResult => rfl
      | items xs =>
        show (if xs.isEmpty = true then
            ({ sentItems := [], newlyUrls := [], scheduleRemoval := false } : WatchOutcome)
          else notify_loop send1
            (items_to_notify t.max_price t.max_minutes_left seen xs)).newlyUrls =
          ((if xs.isEmpty = true then
            ({ sentItems := [], newlyUrls := [], scheduleRemoval := false } : WatchOutcome)
          else notify_loop send1
            (items_to_notify t.max_price t.max_minutes_left seen xs)).sentItems).map urlOf
        by_cases hxs : xs.isEmpty = true
        · rw [if_pos hxs]
          rfl
        · rw [if_neg hxs]
          exact notify_loop_newlyUrls send1 _

/-- C8 counterexample: a stored record with absent `id`, `chat_id` and
`max_price` is not rejected by the parse — it is returned with every absent
required field silently defaulted to `0`, contradicting the claim that the
parse fails closed on absent required fields. -/
theorem C8_counterexample :
    parse_task_hash { platform := some "mercari", query := some "q" } =
      some { id := 0, chat_id := 0, platform := some "mercari", query := some "q",
             max_price := 0, sort_options := none, max_minutes_left := none } := by
  decide

/-- C8 amended: the parse rejects exactly the empty record and the records
whose present `id`/`chat_id`/`max_price` fails numeric conversion; an
absent `id`, `chat_id` or `max_price` is defaulted to `0` rather than
rejected; `platform` and `query_text` are passed through unvalidated, but
a watch whose `platform` or `query` is absent or empty never contributes a
scrape key and is processed to a no-op (no deliveries, no writes, no
removal). -/
theorem C8_parse_fails_closed_amended :
    (∀ h : TaskHash, parse_task_hash h = none ↔
      (h.isEmpty = true ∨ (∃ s, h.id = some s ∧ pyInt s = none) ∨
        (∃ s, h.chat_id = some s ∧ pyInt s = none) ∨
        (∃ s, h.max_price = some s ∧ pyFloat s = none))) ∧
    (∀ (h : TaskHash) (t : ParsedTask), parse_task_hash h = some t →
      (h.id = none → t.id = 0) ∧ (h.chat_id = none → t.chat_id = 0) ∧
      (h.max_price = none → t.max_price = 0)) ∧
    (∀ (st : Store) (f : ScrapeKey → ScrapeRaw) (send : String → Item → SendOutcome)
        (tid : String) (t : ParsedTask),
      (truthy t.platform = false ∨ truthy t.query = false) →
      scrapeKeyOf t ∉ keys_in_order (parsedTasks st.tasks) ∧
        watchW send st.notified (scrapedMapOf (parsedTasks st.tasks) f) (tid, t) =
          ⟨[], [], false⟩) := by
  refine ⟨?_, ?_, ?_⟩
  · intro h
    by_cases hemp : h.isEmpty = true
    · simp only [parse_task_hash, hemp, if_true]
      simp
    · simp only [parse_task_hash, hemp, Bool.false_eq_true, if_false]
      have e1 : (∃ s, h.id = some s ∧ pyInt s = none) ↔
          (match h.id with | none => some (0 : Int) | some s => pyInt s) = none := by
        cases h.id <;> simp
      have e2 : (∃ s, h.chat_id = some s ∧ pyInt s = none) ↔
          (match h.chat_id with | none => some (0 : Int) | some s => pyInt s) = none := by
        cases h.chat_id <;> simp
      have e3 : (∃ s, h.max_price = some s ∧ pyFloat s = none) ↔
          (match h.max_price with | none => some (0 : Rat) | some s => pyFloat s) = none := by
        cases h.max_price <;> simp
      rw [e1, e2, e3]
      rcases hA : (match h.id with | none => some (0 : Int) | some s => pyInt s)
        with _ | i <;>
        rcases hB : (match h.chat_id with | none => some (0 : Int) | some s => pyInt s)
          with _ | c <;>
        rcases hC : (match h.max_price with | none => some (0 : Rat) | some s => pyFloat s)
          with _ | pz <;>
        rw [hA, hB, hC] <;> simp
  · intro h t hp
    by_cases hemp : h.isEmpty = true
    · rw [parse_task_hash, if_pos hemp] at hp
      exact absurd hp (by simp)
    · simp only [parse_task_hash, hemp, Bool.false_eq_true, if_false] at hp
      refine ⟨?_, ?_, ?_⟩
      · intro hid
        rw [hid] at hp
        rcases hB : (match h.chat_id with | none => some (0 : Int) | some s => pyInt s)
          with _ | c <;>
          rcases hC : (match h.max_price with | none => some (0 : Rat) | some s => pyFloat s)
            with _ | pz <;>
          rw [hB, hC] at hp <;> simp at hp
        rw [← hp]
      · intro hchat
        rw [hchat] at hp
        rcases hA : (match h.id with | none => some (0 : Int) | some s => pyInt s)
          with _ | i <;>
          rcases hC : (match h.max_price with | none => some (0 : Rat) | some s => pyFloat s)
            with _ | pz <;>
          rw [hA, hC] at hp <;> simp at hp
        rw [← hp]
      · intro hprice
        rw [hprice] at hp
        rcases hA : (match h.id with | none => some (0 : Int) | some s => pyInt s)
          with _ | i <;>
          rcases hB : (match h.chat_id with | none => some (0 : Int) | some s => pyInt s)
            with _ | c <;>
          rw [hA, hB] at hp <;> simp at hp
        rw [← hp]
  · intro st f send tid t hbad
    have hess : essentialsOk t = false := by
      rcases hbad with hb | hb <;> simp [essentialsOk, hb]
    constructor
    · intro hk
      obtain ⟨p, _, hv, hkey⟩ := (mem_keys_in_order _ _).mp hk
      rw [Bool.and_eq_true] at hv
      rw [scrapeKeyOf, scrapeKeyOf, Prod.mk.injEq, Prod.mk.injEq] at hkey
      rcases hbad with hb | hb
      · rw [hkey.1] at hv
        rw [hv.1] at hb
        exact absurd hb (by simp)
      · rw [hkey.2.1] at hv
        rw [hv.2] at hb
        exact absurd hb (by simp)
    · rw [watchW]
      exact runWatch_skip _ _ _ _ hess

/-- Witness for C8 at a malformed record and a key-incomplete watch. -/
theorem C8_parse_fails_closed_amended_witness :
    parse_task_hash
      { id := some "12x", chat_id := some "1", platform := some "p",
        query := some "q", max_price := some "5" } = none ∧
    watchW (fun _ _ => SendOutcome.success) [] []
      ("9", { id := 1, chat_id := 5, platform := some "", query := some "q",
              max_price := 10, sort_options := none, max_minutes_left := none }) =
      ⟨[], [], false⟩ :=
  ⟨(C8_parse_fails_closed_amended.1 _).mpr
      (Or.inr (Or.inl ⟨"12x", rfl, by decide⟩)),
   (C8_parse_fails_closed_amended.2.2 ⟨[], [], []⟩ (fun _ => ScrapeRaw.exc)
      (fun _ _ => SendOutcome.success) "9"
      { id := 1, chat_id := 5, platform := some "", query := some "q",
        max_price := 10, sort_options := none, max_minutes_left := none }
      (Or.inl (by decide))).2⟩

/-- C1 counterexample: the claim "every successfully delivered item's url
is persisted to the watch's Seen-Item set by cycle end" fails at this
input: item `u1` is delivered successfully, but the very next item's send
raises `Forbidden`, which skips the persist step and deletes the watch, so
at cycle end the watch has no notified set at all and `u1` was never
written. -/
theorem C1_counterexample :
    (check_monitoring_tasks
        { tasks := [("1",
            { id := some "1", chat_id := some "5", platform := some "mercari",
              query := some "q", max_price := some "1000", sort_options := some "",
              max_minutes_left := some "" })],
          notified := [], chatTasks := [(5, ["1"])] }
        (.done fun _ => .items
          [{ name := some "a", price := some 100, url := some "u1" },
           { name := some "b", price := some 100, url := some "u2" }])
        (fun _ it => if it.url = some "u1" then .success else .forbidden)).2 =
      [("1", { name := some "a", price := some 100, url := some "u1" })] ∧
    assocFind
      (check_monitoring_tasks
        { tasks := [("1",
            { id := some "1", chat_id := some "5", platform := some "mercari",
              query := some "q", max_price := some "1000", sort_options := some "",
              max_minutes_left := some "" })],
          notified := [], chatTasks := [(5, ["1"])] }
        (.done fun _ => .items
          [{ name := some "a", price := some 100, url := some "u1" },
           { name := some "b", price := some 100, url := some "u2" }])
        (fun _ it => if it.url = some "u1" then .success else .forbidden)).1.notified
      "1" = none := by
  decide

/-- C1 amended: for a watch whose deliveries hit no `Forbidden` in the
cycle, an item's url is in the watch's notified set at cycle end iff it was
there at cycle start or a delivery attempt for the item returned success
this cycle; the set at cycle end is exactly the old set plus the
successfully delivered urls, and everything in the watch's sent list was a
successful send.  (When a `Forbidden` occurs, the counterexample shows the
urls of this cycle's earlier successes are not persisted — the watch is
deleted instead.) -/
theorem C1_seen_iff_delivered_amended (st : Store) (f : ScrapeKey → ScrapeRaw)
    (send : String → Item → SendOutcome) (tid : String) (t : ParsedTask)
    (hmem : (tid, t) ∈ parsedTasks st.tasks)
    (hnd : (st.tasks.map Prod.fst).Nodup)
    (hnof : (watchOutcomeOf st f send tid t).scheduleRemoval = false) :
    (∀ it ∈ (watchOutcomeOf st f send tid t).sentItems, send tid it = .success) ∧
    seenOf (check_monitoring_tasks st (.done f) send).1 tid =
      saddAll (seenOf st tid) ((watchOutcomeOf st f send tid t).sentItems.map urlOf) ∧
    (∀ u, u ∈ seenOf (check_monitoring_tasks st (.done f) send).1 tid ↔
      (u ∈ seenOf st tid ∨
        ∃ it ∈ (watchOutcomeOf st f send tid t).sentItems, urlOf it = u)) := by
  have hurls : (watchOutcomeOf st f send tid t).newlyUrls =
      (watchOutcomeOf st f send tid t).sentItems.map urlOf := by
    rw [watchOutcomeOf, watchW]
    exact runWatch_newlyUrls _ _ _ _
  have hseen : seenOf (check_monitoring_tasks st (.done f) send).1 tid =
      saddAll (seenOf st tid) ((watchOutcomeOf st f send tid t).sentItems.map urlOf) := by
    rw [seenOf, cycle_notified_eq st f send tid t hmem hnd hnof, ← hurls]
    by_cases hn : (watchOutcomeOf st f send tid t).newlyUrls = []
    · rw [if_neg fun hc => hc hn, hn, saddAll_nil]
      rfl
    · rw [if_pos hn]
      rfl
  refine ⟨?_, hseen, ?_⟩
  · intro it hit
    rw [watchOutcomeOf, watchW] at hit
    exact runWatch_success_only _ _ _ _ _ hit
  · intro u
    rw [hseen, mem_saddAll]
    constructor
    · rintro (h | h)
      · exact Or.inl h
      · rw [List.mem_map] at h
        obtain ⟨it, hit, rfl⟩ := h
        exact Or.inr ⟨it, hit, rfl⟩
    · rintro (h | ⟨it, hit, rfl⟩)
      · exact Or.inl h
      · exact Or.inr (List.mem_map_of_mem _ hit)

/-- Witness for the amended C1 at a concrete all-success cycle. -/
theorem C1_seen_iff_delivered_amended_witness :
    seenOf
      (check_monitoring_tasks
        { tasks := [("1",
            { id := some "1", chat_id := some "5", platform := some "mercari",
              query := some "q", max_price := some "1000", sort_options := some "",
              max_minutes_left := some "" })],
          notified := [("1", ["u0"])], chatTasks := [(5, ["1"])] }
        (.done fun _ => .items
          [{ name := some "a", price := some 400, url := some "u1" }])
        (fun _ _ => .success)).1 "1" =
      saddAll
        (seenOf
          { tasks := [("1",
              { id := some "1", chat_id := some "5", platform := some "mercari",
                query := some "q", max_price := some "1000", sort_options := some "",
                max_minutes_left := some "" })],
            notified := [("1", ["u0"])], chatTasks := [(5, ["1"])] } "1")
        ((watchOutcomeOf
            { tasks := [("1",
                { id := some "1", chat_id := some "5", platform := some "mercari",
                  query := some "q", max_price := some "1000", sort_options := some "",
                  max_minutes_left := some "" })],
              notified := [("1", ["u0"])], chatTasks := [(5, ["1"])] }
            (fun _ => .items [{ name := some "a", price := some 400, url := some "u1" }])
            (fun _ _ => .success) "1"
            { id := 1, chat_id := 5, platform := some "mercari", query := some "q",
              max_price := 1000, sort_options := none,
              max_minutes_left := none }).sentItems.map urlOf) :=
  (C1_seen_iff_delivered_amended _ _ _ "1"
    { id := 1, chat_id := 5, platform := some "mercari", query := some "q",
      max_price := 1000, sort_options := none, max_minutes_left := none }
    (by decide) (by decide) (by decide)).2.1

/-- C5: when a delivery attempt for a watch raises the
destination-unreachable failure (`Forbidden`), the loop attempts no item
after the failed one in that cycle, the failed item is not among the sent
items, and by cycle end the watch's record and its Seen-Item set are
deleted from the store — in particular no seen-item write for this watch
survives the cycle. -/
theorem C5_forbidden_deletes_watch (st : Store) (f : ScrapeKey → ScrapeRaw)
    (send : String → Item → SendOutcome) (tid : String) (t : ParsedTask)
    (xs l1 l2 : List Item) (x : Item)
    (hmem : (tid, t) ∈ parsedTasks st.tasks)
    (hnd : (st.tasks.map Prod.fst).Nodup)
    (hchat : tid ∈ (assocFind st.chatTasks t.chat_id).getD [])
    (hess : essentialsOk t = true)
    (hscr : assocFind (scrapedMapOf (parsedTasks st.tasks) f) (scrapeKeyOf t) =
      some (.items xs))
    (hlist : items_to_notify t.max_price t.max_minutes_left (seenOf st tid) xs =
      l1 ++ x :: l2)
    (hl1 : ∀ y ∈ l1, send tid y ≠ .forbidden)
    (hx : send tid x = .forbidden) :
    attempted (send tid)
        (items_to_notify t.max_price t.max_minutes_left (seenOf st tid) xs) = l1 ++ [x] ∧
    x ∉ (watchOutcomeOf st f send tid t).sentItems ∧
    assocFind (check_monitoring_tasks st (.done f) send).1.tasks tid = none ∧
    assocFind (check_monitoring_tasks st (.done f) send).1.notified tid = none := by
  have hxs : xs.isEmpty = false := by
    cases xs with
    | nil =>
      rw [items_to_notify] at hlist
      simp at hlist
    | cons a as => rfl
  have hlist' : items_to_notify t.max_price t.max_minutes_left
      ((assocFind st.notified tid).getD []) xs = l1 ++ x :: l2 := hlist
  have hW : watchOutcomeOf st f send tid t = notify_loop (send tid) (l1 ++ x :: l2) := by
    rw [watchOutcomeOf, watchW]
    show runWatch (send tid) t ((assocFind st.notified tid).getD [])
      (assocFind (scrapedMapOf (parsedTasks st.tasks) f) (scrapeKeyOf t)) = _
    rw [hscr, runWatch_main _ _ _ _ hess hxs, hlist']
  have hsr : (watchW send st.notified (scrapedMapOf (parsedTasks st.tasks) f)
      (tid, t)).scheduleRemoval = true := by
    have : watchW send st.notified (scrapedMapOf (parsedTasks st.tasks) f) (tid, t) =
        watchOutcomeOf st f send tid t := rfl
    rw [this, hW]
    exact (notify_loop_scheduleRemoval_iff _ _).mpr
      ⟨x, by simp, hx⟩
  have hrem : (tid, t.chat_id) ∈
      ((parsedTasks st.tasks).foldl
        (cycleStep send st.notified (scrapedMapOf (parsedTasks st.tasks) f))
        ⟨st, [], []⟩).removals :=
    (cycleFold_removals_mem _ _ _ _ _ _).mpr (Or.inr ⟨(tid, t), hmem, hsr, rfl⟩)
  have hoth : ∀ r ∈ ((parsedTasks st.tasks).foldl
      (cycleStep send st.notified (scrapedMapOf (parsedTasks st.tasks) f))
      ⟨st, [], []⟩).removals, r.1 = tid → r = (tid, t.chat_id) := by
    intro r hr he
    rw [cycleFold_removals_mem] at hr
    rcases hr with h0 | ⟨p, hp, _, hre⟩
    · simp at h0
    · have hp1 : p.1 = tid := by rw [hre] at he; exact he
      have hpt : p.2 = t :=
        mem_unique_of_keys_nodup _ tid p.2 t (parsedTasks_keys_nodup _ hnd)
          (by rw [← hp1]; exact hp) hmem
      rw [hre, hp1, hpt]
  have hchat' : tid ∈ (assocFind
      ((parsedTasks st.tasks).foldl
        (cycleStep send st.notified (scrapedMapOf (parsedTasks st.tasks) f))
        ⟨st, [], []⟩).store.chatTasks t.chat_id).getD [] := by
    rw [cycleFold_chatTasks]
    exact hchat
  have hdel := removeFold_deletes _ _ tid t.chat_id hrem hoth hchat'
  refine ⟨?_, ?_, hdel.1, hdel.2⟩
  · rw [hlist]
    exact attempted_stops_at_forbidden _ l1 x l2 hl1 hx
  · rw [hW]
    intro hmemx
    have hsx := (notify_loop_sent_mem _ _ _ hmemx).1
    rw [hx] at hsx
    exact absurd hsx (by decide)

/-- Witness for C5 at a concrete cycle whose second delivery is Forbidden. -/
theorem C5_forbidden_deletes_watch_witness :
    attempted ((fun _ it => if it.url = some "u1" then SendOutcome.success
        else SendOutcome.forbidden) "1")
        (items_to_notify 1000 none
          (seenOf
            { tasks := [("1",
                { id := some "1", chat_id := some "5", platform := some "mercari",
                  query := some "q", max_price := some "1000", sort_options := some "",
                  max_minutes_left := some "" })],
              notified := [], chatTasks := [(5, ["1"])] } "1")
          [{ name := some "a", price := some 100, url := some "u1" },
           { name := some "b", price := some 100, url := some "u2" }]) =
      [{ name := some "a", price := some 100, url := some "u1" }] ++
        [{ name := some "b", price := some 100, url := some "u2" }] ∧
    ({ name := some "b", price := some 100, url := some "u2" } : Item) ∉
      (watchOutcomeOf
        { tasks := [("1",
            { id := some "1", chat_id := some "5", platform := some "mercari",
              query := some "q", max_price := some "1000", sort_options := some "",
              max_minutes_left := some "" })],
          notified := [], chatTasks := [(5, ["1"])] }
        (fun _ => .items
          [{ name := some "a", price := some 100, url := some "u1" },
           { name := some "b", price := some 100, url := some "u2" }])
        (fun _ it => if it.url = some "u1" then SendOutcome.success
          else SendOutcome.forbidden) "1"
        { id := 1, chat_id := 5, platform := some "mercari", query := some "q",
          max_price := 1000, sort_options := none, max_minutes_left := none }).sentItems ∧
    assocFind
      (check_monitoring_tasks
        { tasks := [("1",
            { id := some "1", chat_id := some "5", platform := some "mercari",
              query := some "q", max_price := some "1000", sort_options := some "",
              max_minutes_left := some "" })],
          notified := [], chatTasks := [(5, ["1"])] }
        (.done fun _ => .items
          [{ name := some "a", price := some 100, url := some "u1" },
           { name := some "b", price := some 100, url := some "u2" }])
        (fun _ it => if it.url = some "u1" then SendOutcome.success
          else SendOutcome.forbidden)).1.tasks "1" = none ∧
    assocFind
      (check_monitoring_tasks
        { tasks := [("1",
            { id := some "1", chat_id := some "5", platform := some "mercari",
              query := some "q", max_price := some "1000", sort_options := some "",
              max_minutes_left := some "" })],
          notified := [], chatTasks := [(5, ["1"])] }
        (.done fun _ => .items
          [{ name := some "a", price := some 100, url := some "u1" },
           { name := some "b", price := some 100, url := some "u2" }])
        (fun _ it => if it.url = some "u1" then SendOutcome.success
          else SendOutcome.forbidden)).1.notified "1" = none :=
  C5_forbidden_deletes_watch
    { tasks := [("1",
        { id := some "1", chat_id := some "5", platform := some "mercari",
          query := some "q", max_price := some "1000", sort_options := some "",
          max_minutes_left := some "" })],
      notified := [], chatTasks := [(5, ["1"])] }
    (fun _ => .items
      [{ name := some "a", price := some 100, url := some "u1" },
       { name := some "b", price := some 100, url := some "u2" }])
    (fun _ it => if it.url = some "u1" then SendOutcome.success
      else SendOutcome.forbidden) "1"
    { id := 1, chat_id := 5, platform := some "mercari", query := some "q",
      max_price := 1000, sort_options := none, max_minutes_left := none }
    [{ name := some "a", price := some 100, url := some "u1" },
     { name := some "b", price := some 100, url := some "u2" }]
    [{ name := some "a", price := some 100, url := some "u1" }]
    [] { name := some "b", price := some 100, url := some "u2" }
    (by decide) (by decide) (by decide) (by decide) (by decide) (by decide)
    (by decide) (by decide)

/-- C7: idempotence — running the cycle twice in a row with the same scrape
results and all first-cycle deliveries succeeding produces no notification
the second time: every qualifying item's url is in the Seen-Item set after
the first cycle, so every watch's new-item list is empty on the second
pass. -/
theorem C7_second_cycle_idempotent (st : Store) (f : ScrapeKey → ScrapeRaw)
    (send : String → Item → SendOutcome)
    (hnd : (st.tasks.map Prod.fst).Nodup)
    (hsucc : ∀ tid it, send tid it = .success) :
    (check_monitoring_tasks (check_monitoring_tasks st (.done f) send).1
      (.done f) send).2 = [] := by
  have hnoforb : ∀ (snap : List (String × List String))
      (smap : List (ScrapeKey × ScrapeRaw)) (p : String × ParsedTask),
      (watchW send snap smap p).scheduleRemoval = false := by
    intro snap smap p
    rw [watchW]
    refine runWatch_no_forbidden _ _ _ _ fun it hf => ?_
    rw [hsucc p.1 it] at hf
    exact absurd hf (by decide)
  have hrem1 : ((parsedTasks st.tasks).foldl
      (cycleStep send st.notified (scrapedMapOf (parsedTasks st.tasks) f))
      ⟨st, [], []⟩).removals = [] := by
    rw [List.eq_nil_iff_forall_not_mem]
    intro r hr
    rw [cycleFold_removals_mem] at hr
    rcases hr with h0 | ⟨p, _, hsr, _⟩
    · simp at h0
    · rw [hnoforb _ _ p] at hsr
      exact absurd hsr (by decide)
  have hst1tasks : (check_monitoring_tasks st (.done f) send).1.tasks = st.tasks := by
    show (((parsedTasks st.tasks).foldl
        (cycleStep send st.notified (scrapedMapOf (parsedTasks st.tasks) f))
        ⟨st, [], []⟩).removals.foldl (fun s r => (remove_task s r.1 r.2).1)
      ((parsedTasks st.tasks).foldl
        (cycleStep send st.notified (scrapedMapOf (parsedTasks st.tasks) f))
        ⟨st, [], []⟩).store).tasks = st.tasks
    rw [hrem1, List.foldl_nil, cycleFold_tasks]
  set st1 := (check_monitoring_tasks st (.done f) send).1 with hst1def
  have hps : parsedTasks st1.tasks = parsedTasks st.tasks := by rw [hst1tasks]
  show ((parsedTasks st1.tasks).foldl
      (cycleStep send st1.notified (scrapedMapOf (parsedTasks st1.tasks) f))
      ⟨st1, [], []⟩).notifs = []
  rw [hps, cycleFold_notifs]
  have hcalc : ∀ L : List (List (String × Item)),
      (∀ l ∈ L, l = []) →
      (CycleAcc.notifs ⟨st1, [], []⟩ ++ L.flatten) = [] := by
    intro L hL
    rw [List.flatten_eq_nil_iff.mpr hL]
    rfl
  apply hcalc
  intro l hl
  rw [List.mem_map] at hl
  obtain ⟨p, hp, hpe⟩ := hl
  rw [← hpe, List.map_eq_nil_iff]
  obtain ⟨tid, t⟩ := p
  rw [watchW]
  apply runWatch_sent_nil
  intro hess xs hscr hxs it hit hm
  have hW1main : watchOutcomeOf st f send tid t =
      notify_loop (send tid)
        (items_to_notify t.max_price t.max_minutes_left (seenOf st tid) xs) := by
    rw [watchOutcomeOf, watchW]
    show runWatch (send tid) t ((assocFind st.notified tid).getD [])
      (assocFind (scrapedMapOf (parsedTasks st.tasks) f) (scrapeKeyOf t)) = _
    rw [hscr, runWatch_main _ _ _ _ hess hxs]
    rfl
  have hall : notify_loop (send tid)
      (items_to_notify t.max_price t.max_minutes_left (seenOf st tid) xs) =
      ⟨items_to_notify t.max_price t.max_minutes_left (seenOf st tid) xs,
       (items_to_notify t.max_price t.max_minutes_left (seenOf st tid) xs).map urlOf,
       false⟩ :=
    notify_loop_all_success _ _ fun it2 _ => hsucc tid it2
  have hurls : (watchOutcomeOf st f send tid t).newlyUrls =
      (items_to_notify t.max_price t.max_minutes_left (seenOf st tid) xs).map urlOf := by
    rw [hW1main, hall]
  have hseen1 : (assocFind st1.notified tid).getD [] =
      saddAll (seenOf st tid)
        ((items_to_notify t.max_price t.max_minutes_left (seenOf st tid) xs).map
          urlOf) := by
    rw [hst1def,
      cycle_notified_eq st f send tid t hp hnd
        (hnoforb st.notified (scrapedMapOf (parsedTasks st.tasks) f) (tid, t))]
    by_cases hn : (watchOutcomeOf st f send tid t).newlyUrls = []
    · rw [if_neg fun hc => hc hn]
      have hmap : (items_to_notify t.max_price t.max_minutes_left (seenOf st tid)
          xs).map urlOf = [] := by
        rw [← hurls, hn]
      rw [hmap, saddAll_nil]
      rfl
    · rw [if_pos hn]
      show saddAll (seenOf st tid) (watchOutcomeOf st f send tid t).newlyUrls = _
      rw [hurls]
  rw [hseen1, mem_saddAll]
  by_cases hs0 : urlOf it ∈ seenOf st tid
  · exact Or.inl hs0
  · refine Or.inr (List.mem_map_of_mem _ ?_)
    rw [items_to_notify, List.mem_filter]
    exact ⟨hit, by simp [hm, hs0]⟩

/-- Witness for C7 at a concrete store and all-success transport. -/
theorem C7_second_cycle_idempotent_witness :
    (check_monitoring_tasks
      (check_monitoring_tasks
        { tasks := [("1",
            { id := some "1", chat_id := some "5", platform := some "mercari",
              query := some "q", max_price := some "1000", sort_options := some "",
              max_minutes_left := some "" })],
          notified := [], chatTasks := [(5, ["1"])] }
        (.done fun _ => .items
          [{ name := some "a", price := some 400, url := some "u1" }])
        (fun _ _ => .success)).1
      (.done fun _ => .items
        [{ name := some "a", price := some 400, url := some "u1" }])
      (fun _ _ => .success)).2 = [] :=
  C7_second_cycle_idempotent
    { tasks := [("1",
        { id := some "1", chat_id := some "5", platform := some "mercari",
          query := some "q", max_price := some "1000", sort_options := some "",
          max_minutes_left := some "" })],
      notified := [], chatTasks := [(5, ["1"])] }
    (fun _ => .items [{ name := some "a", price := some 400, url := some "u1" }])
    (fun _ _ => .success) (by decide) (fun _ _ => rfl)

end ZenMonitor
